import Mathlib

/-
  Verification of the geometric-fit, color-keying and orchestration logic of
  the image-processor repository.

  The JavaScript arithmetic (IEEE doubles over integer pixel dimensions) is
  embedded as exact rational arithmetic: integer pixel dimensions live in ℤ,
  intermediate quotients in ℚ, and the functions Math.ceil, Math.floor and
  Math.round become the corresponding operations on ℚ (Math.round in
  JavaScript rounds half-up, i.e. toward positive infinity on ties; all values
  rounded here are non-negative).  Division by zero in ℚ yields 0; every
  theorem below restricts to inputs whose source dimensions are positive, for
  which no division by zero occurs in any of the embedded functions.
-/

namespace ImageProcessor

/-- Embedding of JavaScript Math.ceil on exact rationals. -/
def jceil (q : ℚ) : ℤ := ⌈q⌉

/-- Embedding of JavaScript Math.floor on exact rationals. -/
def jfloor (q : ℚ) : ℤ := ⌊q⌋

/-- Embedding of JavaScript Math.round on exact rationals (half-up). -/
def jround (q : ℚ) : ℤ := ⌊q + 1/2⌋

/-- Canvas geometry produced by a fit computation: canvas dimensions and the
centering offsets at which the source is blitted. -/
structure FitResult where
  width : ℤ
  height : ℤ
  offsetX : ℤ
  offsetY : ℤ
deriving Repr, DecidableEq

/-
  createRectangularLogo, first copy in part_000 (the exact-integer-math
  version).  Step 1: smallest containing box at the target ratio.
-/

/-- Step 1 of createRectangularLogo (part_000 first copy, lines 88-101):
if the source is relatively wider than the ratio keep the width and derive the
height with Math.ceil, otherwise keep the height and derive the width. -/
def rectStep1A (w h : ℤ) (a : ℚ) : ℤ × ℤ :=
  if (w:ℚ)/(h:ℚ) > a then (w, jceil ((w:ℚ)/a)) else (jceil ((h:ℚ)*a), h)

/-- Height half of the minimum enforcement of createRectangularLogo
(part_000 first copy, lines 109-112): runs on the state already updated by the
width half. -/
def rectMinA2 (a : ℚ) (minH : ℤ) (q : ℤ × ℤ) : ℤ × ℤ :=
  if q.2 < minH then (jceil ((minH:ℚ)*a), minH) else q

/-- Minimum enforcement of createRectangularLogo (part_000 first copy,
lines 103-113): inside one guard, first fix the width, then fix the (possibly
already updated) height. -/
def rectMinA (a : ℚ) (minW minH : ℤ) (p : ℤ × ℤ) : ℤ × ℤ :=
  if p.1 < minW ∨ p.2 < minH then
    rectMinA2 a minH (if p.1 < minW then (minW, jceil ((minW:ℚ)/a)) else p)
  else p

/-- Dead-in-practice branch of the exact-ratio snapping (part_000 first copy,
lines 123-128): re-even an odd derived height. -/
def rectSnapEven (p : ℤ × ℤ) : ℤ × ℤ :=
  if p.2 % 2 ≠ 0 then ((jceil ((p.2:ℚ)/2) * 2) * 5 / 2, jceil ((p.2:ℚ)/2) * 2) else p

/-- Dead-in-practice fallback of the exact-ratio snapping (part_000 first
copy, lines 134-146): rescale by shared integer units if the ratio check
fails. -/
def rectSnapUnits (q : ℤ × ℤ) : ℤ × ℤ :=
  if (q.1:ℚ)/(q.2:ℚ) ≠ 5/2 then
    (5 * max (jceil ((q.2:ℚ)/2)) (jceil ((q.1:ℚ)/5)),
     2 * max (jceil ((q.2:ℚ)/2)) (jceil ((q.1:ℚ)/5)))
  else q

/-- Exact-ratio snapping of createRectangularLogo (part_000 first copy,
lines 115-147), applied only when the aspect ratio equals 2.5: round the width
up to a multiple of 5, derive the height as width*2/5 (exact, hence the
integer division), then the two dead-in-practice correction branches.
Math.round on the already-integral values is the identity and is omitted. -/
def rectSnapA (a : ℚ) (p : ℤ × ℤ) : ℤ × ℤ :=
  if a = 5/2 then
    rectSnapUnits (rectSnapEven (jceil ((p.1:ℚ)/5) * 5, jceil ((p.1:ℚ)/5) * 5 * 2 / 5))
  else p

/-- createRectangularLogo, part_000 first copy: canvas dimensions and
centering offsets (lines 149-163). -/
def rectFitA (w h : ℤ) (a : ℚ) (minW minH : ℤ) : FitResult :=
  let p := rectSnapA a (rectMinA a minW minH (rectStep1A w h a))
  ⟨p.1, p.2, jfloor (((p.1 - w : ℤ):ℚ)/2), jfloor (((p.2 - h : ℤ):ℚ)/2)⟩

/-- Step 1 of createRectangularLogo, part_001 copy (lines 84-92): same shape
but with Math.round instead of Math.ceil. -/
def rectStep1B (w h : ℤ) (a : ℚ) : ℤ × ℤ :=
  if (w:ℚ)/(h:ℚ) > a then (w, jround ((w:ℚ)/a)) else (jround ((h:ℚ)*a), h)

/-- Minimum enforcement of createRectangularLogo, part_001 copy
(lines 94-99): scale both dimensions by the larger of the two shortfall
factors and round. -/
def rectMinB (minW minH : ℤ) (p : ℤ × ℤ) : ℤ × ℤ :=
  if p.1 < minW ∨ p.2 < minH then
    let sf := max ((minW:ℚ)/(p.1:ℚ)) ((minH:ℚ)/(p.2:ℚ))
    (jround ((p.1:ℚ) * sf), jround ((p.2:ℚ) * sf))
  else p

/-- createRectangularLogo, part_001 copy: canvas dimensions and centering
offsets (lines 101-114). -/
def rectFitB (w h : ℤ) (a : ℚ) (minW minH : ℤ) : FitResult :=
  let p := rectMinB minW minH (rectStep1B w h a)
  ⟨p.1, p.2, jfloor (((p.1 - w : ℤ):ℚ)/2), jfloor (((p.2 - h : ℤ):ℚ)/2)⟩

/-- createSquareLogo (part_000 lines 185-222 and part_001 lines 127-160):
square side is the larger source dimension, raised to minSize if below it. -/
def squareFit (w h minSize : ℤ) : FitResult :=
  let s0 := max w h
  let s := if s0 < minSize then minSize else s0
  ⟨s, s, jfloor (((s - w : ℤ):ℚ)/2), jfloor (((s - h : ℤ):ℚ)/2)⟩

/-- Step 1 of createHeadshot (part_002 lines 70-85): smallest containing box
at the target ratio num:den, derived with Math.ceil on the side computed from
the kept side. -/
def headshotStep1 (w h num den : ℤ) : ℤ × ℤ :=
  if (w:ℚ)/(h:ℚ) > (num:ℚ)/(den:ℚ) then (w, jceil (((w * den : ℤ):ℚ)/(num:ℚ)))
  else (jceil (((h * num : ℤ):ℚ)/(den:ℚ)), h)

/-- Limiting-dimension choice of createHeadshot's minimum enforcement
(part_002 lines 89-107): compare the shortfall scales and re-derive the other
dimension from the chosen minimum with Math.ceil. -/
def headshotMinPick (num den minW minH : ℤ) (p : ℤ × ℤ) : ℤ × ℤ :=
  if (minW:ℚ)/(p.1:ℚ) > (minH:ℚ)/(p.2:ℚ)
  then (minW, jceil (((minW * den : ℤ):ℚ)/(num:ℚ)))
  else (jceil (((minH * num : ℤ):ℚ)/(den:ℚ)), minH)

/-- Double-check of createHeadshot's minimum enforcement (part_002
lines 109-111): bump each dimension still below its minimum up to it. -/
def headshotBump (minW minH : ℤ) (q : ℤ × ℤ) : ℤ × ℤ :=
  (if q.1 < minW then minW else q.1, if q.2 < minH then minH else q.2)

/-- Final ratio verification of createHeadshot's minimum enforcement
(part_002 lines 113-127): if the ratio drifted by more than 0.0001, re-derive
the dimension with more margin over its minimum with Math.ceil. -/
def headshotVerify (num den minW minH : ℤ) (r : ℤ × ℤ) : ℤ × ℤ :=
  if |((r.1:ℚ)/(r.2:ℚ)) - (num:ℚ)/(den:ℚ)| > 1/10000 then
    if (r.1:ℚ)/(minW:ℚ) > (r.2:ℚ)/(minH:ℚ)
    then (jceil ((r.2:ℚ) * ((num:ℚ)/(den:ℚ))), r.2)
    else (r.1, jceil ((r.1:ℚ) / ((num:ℚ)/(den:ℚ))))
  else r

/-- Minimum enforcement of createHeadshot (part_002 lines 87-128). -/
def headshotMin (num den minW minH : ℤ) (p : ℤ × ℤ) : ℤ × ℤ :=
  if p.1 < minW ∨ p.2 < minH then
    headshotVerify num den minW minH (headshotBump minW minH (headshotMinPick num den minW minH p))
  else p

/-- createHeadshot (part_002): canvas dimensions and centering offsets
(lines 130-140). -/
def headshotFit (w h num den minW minH : ℤ) : FitResult :=
  let p := headshotMin num den minW minH (headshotStep1 w h num den)
  ⟨p.1, p.2, jfloor (((p.1 - w : ℤ):ℚ)/2), jfloor (((p.2 - h : ℤ):ℚ)/2)⟩

/-- Canvas side used by createIcoFromSquare: the largest of the sizes 40, 48
and 64 (part_000 first copy lines 235-236); the part_001 copy hard-codes the
same value 64. -/
def icoCanvasSize : ℤ := max (max 40 48) 64

/-- Geometry produced by createIcoFromSquare: the scaled content dimensions
and the centering offsets on the fixed square canvas. -/
structure IcoResult where
  scaledW : ℤ
  scaledH : ℤ
  x : ℤ
  y : ℤ
deriving Repr, DecidableEq

/-- createIcoFromSquare (part_000 first copy lines 256-264, part_001 copy
lines 186-193): uniform scale factor min(size/w, size/h), scaled dimensions
rounded, then centered with floor. -/
def icoFit (w h : ℤ) : IcoResult :=
  let scale : ℚ := min ((icoCanvasSize:ℚ)/(w:ℚ)) ((icoCanvasSize:ℚ)/(h:ℚ))
  let sw := jround ((w:ℚ) * scale)
  let sh := jround ((h:ℚ) * scale)
  ⟨sw, sh, jfloor (((icoCanvasSize - sw : ℤ):ℚ)/2), jfloor (((icoCanvasSize - sh : ℤ):ℚ)/2)⟩

/-- Background fill mode used when clearing a canvas. -/
inductive Fill where
  | white
  | transparent
deriving Repr, DecidableEq

/-- Rendering geometry of the part_002 createHeadshot: the fit, the
unconditional white fill (part_002 lines 134-136), and the size at which the
source is drawn; drawImage(img, x, y) with three arguments draws the source
unscaled, so the drawn size equals the source size. -/
structure HeadshotRender where
  fit : FitResult
  background : Fill
  drawW : ℤ
  drawH : ℤ
deriving Repr, DecidableEq

/-- createHeadshot of part_002, with the processHeadshot defaults
minWidth = 292, minHeight = 400, targetRatio = [73, 100]. -/
def renderHeadshotP2 (w h : ℤ) : HeadshotRender :=
  ⟨headshotFit w h 73 100 292 400, Fill.white, w, h⟩

/-- Closed form of the loop in the CropperComponent copy of createHeadshot
(lines 341-344): baseWidth starts at num and is incremented by num while it is
below the source width, so it ends at the smallest positive multiple of num
that is at least the source width. -/
def cropperBaseWidth (num w : ℤ) : ℤ := num * max 1 (jceil ((w:ℚ)/(num:ℚ)))

/-- Result of the CropperComponent copy of createHeadshot: final canvas
dimensions, the effective drawn size of the source content (rational, since
the second pass rescales the whole base canvas), and the background fill. -/
structure CropperResult where
  canvasW : ℤ
  canvasH : ℤ
  contentW : ℚ
  contentH : ℚ
  background : Fill
deriving Repr, DecidableEq

/-- createHeadshot, CropperComponent copy (lines 328-398): pad the source on a
white base canvas of baseWidth x baseHeight at the exact ratio; if the base
canvas is below the minimums, draw it again scaled by the larger shortfall
factor (rounding the scaled canvas dimensions), which rescales the source
content by the same factors. -/
def cropperHeadshot (w h num den minW minH : ℤ) : CropperResult :=
  let baseW := cropperBaseWidth num w
  let baseH := baseW * den / num
  if baseW < minW ∨ baseH < minH then
    let sf : ℚ := max ((minW:ℚ)/(baseW:ℚ)) ((minH:ℚ)/(baseH:ℚ))
    let scaleW := jround ((baseW:ℚ) * sf)
    let scaleH := jround ((baseH:ℚ) * sf)
    ⟨scaleW, scaleH, (w:ℚ) * ((scaleW:ℚ)/(baseW:ℚ)), (h:ℚ) * ((scaleH:ℚ)/(baseH:ℚ)),
      Fill.white⟩
  else ⟨baseW, baseH, (w:ℚ), (h:ℚ), Fill.white⟩

/-- One RGBA pixel, one natural number per 8-bit channel. -/
structure Pixel where
  r : ℕ
  g : ℕ
  b : ℕ
  a : ℕ
deriving Repr, DecidableEq

/-- A decoded bitmap: dimensions plus a row-major pixel buffer. -/
structure Bitmap where
  width : ℕ
  height : ℕ
  data : List Pixel
deriving Repr, DecidableEq

/-- Keying parameters of removeBackground: the parsed target RGB channels and
the numeric tolerance.  (The hex-string parsing of the target color is
peripheral and not modelled.) -/
structure KeyingSpec where
  targetR : ℕ
  targetG : ℕ
  targetB : ℕ
  tolerance : ℚ
deriving Repr, DecidableEq

/-- The squared Euclidean RGB distance between a pixel and the keying target
(imageManipulation.js lines 90-94 compute its square root). -/
def distSq (p : Pixel) (s : KeyingSpec) : ℤ :=
  ((p.r:ℤ) - s.targetR)^2 + ((p.g:ℤ) - s.targetG)^2 + ((p.b:ℤ) - s.targetB)^2

/-- Per-pixel action of removeBackground (imageManipulation.js lines 84-100):
zero the alpha when sqrt(distSq) < tolerance, i.e. when distSq < tolerance^2
(the comparison of the non-negative square root with the tolerance is
equivalent to the squared comparison whenever the tolerance is non-negative,
proved below). -/
def keyPixel (s : KeyingSpec) (p : Pixel) : Pixel :=
  if (distSq p s : ℚ) < s.tolerance^2 then ⟨p.r, p.g, p.b, 0⟩ else p

/-- removeBackground (imageManipulation.js lines 58-107): the canvas is
created with exactly the source dimensions (lines 73-74) and every pixel of
the buffer is mapped by the keying test. -/
def removeBackground (bmp : Bitmap) (s : KeyingSpec) : Bitmap :=
  ⟨bmp.width, bmp.height, bmp.data.map (keyPixel s)⟩

/-- The three fields of the object resolved by processLogo. -/
structure LogoResult where
  rectangular : Option FitResult
  square : Option FitResult
  ico : Option IcoResult
deriving Repr, DecidableEq

/-- processLogo (part_000 first copy lines 35-48): the rectangular logo is
always produced, the square logo only when the square option is set, and the
ico only when both the ico and the square options are set. -/
def processLogo (w h : ℤ) (a : ℚ) (minW minH : ℤ) (squareOpt icoOpt : Bool) :
    LogoResult :=
  ⟨some (rectFitA w h a minW minH),
   if squareOpt then some (squareFit w h 40) else none,
   if icoOpt && squareOpt then some (icoFit w h) else none⟩

/- ### Basic facts about the rounding helpers -/

theorem le_jceil {z : ℤ} {q : ℚ} (h : (z:ℚ) ≤ q) : z ≤ jceil q := by
  simpa [jceil] using Int.ceil_mono h

theorem jceil_le {z : ℤ} {q : ℚ} (h : q ≤ (z:ℚ)) : jceil q ≤ z :=
  Int.ceil_le.mpr h

theorem jceil_le_iff {z : ℤ} {q : ℚ} : jceil q ≤ z ↔ q ≤ (z:ℚ) := Int.ceil_le

theorem rat_le_jceil (q : ℚ) : q ≤ (jceil q : ℚ) := Int.le_ceil q

theorem le_jround {z : ℤ} {q : ℚ} (h : (z:ℚ) ≤ q) : z ≤ jround q := by
  refine Int.le_floor.mpr ?_
  linarith

theorem jround_le {z : ℤ} {q : ℚ} (h : q ≤ (z:ℚ)) : jround q ≤ z := by
  have : jround q < z + 1 := by
    refine Int.floor_lt.mpr ?_
    push_cast
    linarith
  omega

theorem jfloor_nonneg {q : ℚ} (h : 0 ≤ q) : 0 ≤ jfloor q := by
  exact Int.le_floor.mpr (by simpa using h)

theorem jfloor_half_nonneg {x y : ℤ} (h : y ≤ x) : 0 ≤ jfloor (((x - y : ℤ):ℚ)/2) := by
  refine jfloor_nonneg ?_
  have : (0:ℚ) ≤ ((x - y : ℤ):ℚ) := by exact_mod_cast sub_nonneg.mpr h
  linarith

theorem jceil_intCast (z : ℤ) : jceil ((z:ℚ)) = z := by
  simp [jceil]

theorem jround_intCast (z : ℤ) : jround ((z:ℚ)) = z := by
  unfold jround
  rw [add_comm, Int.floor_add_int]
  norm_num

theorem jceil_pos {q : ℚ} (h : 0 < q) : 0 < jceil q := Int.ceil_pos.mpr h

theorem jceil_mono {q r : ℚ} (h : q ≤ r) : jceil q ≤ jceil r := Int.ceil_mono h

/-- Concrete evaluation rule for jceil (the kernel does not reduce rational
arithmetic, so closed instances are certified through this bound pair). -/
theorem jceil_eval {q : ℚ} {z : ℤ} (h1 : (z:ℚ) - 1 < q) (h2 : q ≤ (z:ℚ)) :
    jceil q = z := by
  unfold jceil
  rw [Int.ceil_eq_iff]
  exact ⟨h1, h2⟩

/-- Concrete evaluation rule for jfloor. -/
theorem jfloor_eval {q : ℚ} {z : ℤ} (h1 : (z:ℚ) ≤ q) (h2 : q < (z:ℚ) + 1) :
    jfloor q = z := by
  unfold jfloor
  rw [Int.floor_eq_iff]
  exact ⟨h1, h2⟩

/-- Concrete evaluation rule for jround. -/
theorem jround_eval {q : ℚ} {z : ℤ} (h1 : (z:ℚ) ≤ q + 1/2) (h2 : q + 1/2 < (z:ℚ) + 1) :
    jround q = z := by
  unfold jround
  rw [Int.floor_eq_iff]
  exact ⟨h1, h2⟩

/- ### The exact-math rectangular fit (part_000 first copy) -/

/-- Step 1 keeps both source dimensions inside the box and leaves the box
within one Math.ceil of the target ratio in both directions. -/
theorem rectStep1A_bounds (w h : ℤ) (a : ℚ) (_hw : 0 < w) (hh : 0 < h) (ha : 0 < a) :
    w ≤ (rectStep1A w h a).1 ∧ h ≤ (rectStep1A w h a).2 ∧
    (rectStep1A w h a).2 ≤ jceil (((rectStep1A w h a).1 : ℚ) / a) ∧
    (rectStep1A w h a).1 ≤ jceil (((rectStep1A w h a).2 : ℚ) * a) := by
  have hhq : (0:ℚ) < (h:ℚ) := by exact_mod_cast hh
  unfold rectStep1A
  by_cases hc : (w:ℚ)/(h:ℚ) > a
  · rw [if_pos hc]
    dsimp only
    have hah : a * (h:ℚ) < (w:ℚ) := (lt_div_iff₀ hhq).mp hc
    have hwa : (h:ℚ) < (w:ℚ)/a := by
      rw [lt_div_iff₀ ha]
      linarith [mul_comm a (h:ℚ)]
    refine ⟨le_refl w, le_jceil hwa.le, le_refl _, ?_⟩
    refine le_jceil ?_
    have h2 : (w:ℚ)/a ≤ (jceil ((w:ℚ)/a) : ℚ) := rat_le_jceil _
    calc (w:ℚ) = (w:ℚ)/a * a := by field_simp
      _ ≤ (jceil ((w:ℚ)/a) : ℚ) * a := mul_le_mul_of_nonneg_right h2 ha.le
  · rw [if_neg hc]
    dsimp only
    push_neg at hc
    have hwa : (w:ℚ) ≤ (h:ℚ) * a := by
      have := (div_le_iff₀ hhq).mp hc
      linarith [mul_comm a (h:ℚ)]
    refine ⟨le_jceil hwa, le_refl h, ?_, le_refl _⟩
    refine le_jceil ?_
    rw [le_div_iff₀ ha]
    calc (h:ℚ) * a ≤ (jceil ((h:ℚ)*a) : ℚ) := rat_le_jceil _

/-- The height half of the minimum enforcement preserves all the bounds and
invariants, given that the width bound already holds on its input. -/
theorem rectMinA2_bounds {a : ℚ} {minH : ℤ} {q : ℤ × ℤ} {w h minW : ℤ}
    (ha : 0 < a)
    (k1 : w ≤ q.1) (k2 : h ≤ q.2) (k3 : minW ≤ q.1)
    (k4 : q.2 ≤ jceil ((q.1:ℚ)/a)) (k5 : q.1 ≤ jceil ((q.2:ℚ)*a)) :
    w ≤ (rectMinA2 a minH q).1 ∧ h ≤ (rectMinA2 a minH q).2 ∧
    minW ≤ (rectMinA2 a minH q).1 ∧ minH ≤ (rectMinA2 a minH q).2 ∧
    (rectMinA2 a minH q).2 ≤ jceil (((rectMinA2 a minH q).1:ℚ)/a) ∧
    (rectMinA2 a minH q).1 ≤ jceil (((rectMinA2 a minH q).2:ℚ)*a) := by
  unfold rectMinA2
  by_cases hq2 : q.2 < minH
  · rw [if_pos hq2]
    dsimp only
    have hmono : jceil ((q.2:ℚ)*a) ≤ jceil ((minH:ℚ)*a) := by
      refine jceil_mono (mul_le_mul_of_nonneg_right ?_ ha.le)
      exact_mod_cast hq2.le
    have c1 : q.1 ≤ jceil ((minH:ℚ)*a) := k5.trans hmono
    refine ⟨k1.trans c1, k2.trans hq2.le, k3.trans c1, le_refl _, ?_, le_refl _⟩
    refine le_jceil ?_
    rw [le_div_iff₀ ha]
    exact rat_le_jceil _
  · rw [if_neg hq2]
    exact ⟨k1, k2, k3, not_lt.mp hq2, k4, k5⟩

/-- The full minimum enforcement of the exact-math rectangular fit keeps the
source inside, establishes both minimums and preserves the one-ceil ratio
invariants. -/
theorem rectMinA_bounds {a : ℚ} (minW minH : ℤ) {p : ℤ × ℤ} {w h : ℤ}
    (ha : 0 < a)
    (h1 : w ≤ p.1) (h2 : h ≤ p.2)
    (h3 : p.2 ≤ jceil ((p.1:ℚ)/a)) (h4 : p.1 ≤ jceil ((p.2:ℚ)*a)) :
    w ≤ (rectMinA a minW minH p).1 ∧ h ≤ (rectMinA a minW minH p).2 ∧
    minW ≤ (rectMinA a minW minH p).1 ∧ minH ≤ (rectMinA a minW minH p).2 ∧
    (rectMinA a minW minH p).2 ≤ jceil (((rectMinA a minW minH p).1:ℚ)/a) ∧
    (rectMinA a minW minH p).1 ≤ jceil (((rectMinA a minW minH p).2:ℚ)*a) := by
  unfold rectMinA
  by_cases ho : p.1 < minW ∨ p.2 < minH
  · rw [if_pos ho]
    by_cases hq1 : p.1 < minW
    · rw [if_pos hq1]
      refine rectMinA2_bounds ha (h1.trans hq1.le) ?_ (le_refl _) (le_refl _) ?_
      · refine h2.trans (h3.trans (jceil_mono ?_))
        have hc : (p.1:ℚ) ≤ (minW:ℚ) := by exact_mod_cast hq1.le
        gcongr
      · refine le_jceil ?_
        have h5 : (minW:ℚ)/a ≤ (jceil ((minW:ℚ)/a) : ℚ) := rat_le_jceil _
        calc (minW:ℚ) = (minW:ℚ)/a * a := by field_simp
          _ ≤ (jceil ((minW:ℚ)/a) : ℚ) * a := mul_le_mul_of_nonneg_right h5 ha.le
    · rw [if_neg hq1]
      exact rectMinA2_bounds ha h1 h2 (not_lt.mp hq1) h3 h4
  · rw [if_neg ho]
    push_neg at ho
    exact ⟨h1, h2, ho.1, ho.2, h3, h4⟩

/-- For any aspect ratio other than 5:2 the snapping step is the identity. -/
theorem rectSnapA_ne {a : ℚ} (hne : a ≠ 5/2) (p : ℤ × ℤ) : rectSnapA a p = p := by
  unfold rectSnapA
  rw [if_neg hne]

/-- At ratio 5:2 the snapping returns width 5u and height 2u for
u = ceil(width/5); both dead correction branches are skipped. -/
theorem rectSnapA_52 (p : ℤ × ℤ) (hp : 1 ≤ p.1) :
    rectSnapA (5/2) p = (jceil ((p.1:ℚ)/5) * 5, 2 * jceil ((p.1:ℚ)/5)) := by
  have h5 : (5:ℤ) ≠ 0 := by norm_num
  set u := jceil ((p.1:ℚ)/5) with hu
  have hupos : 0 < u := by
    rw [hu]
    refine jceil_pos ?_
    have hq : (0:ℚ) < (p.1:ℚ) := by exact_mod_cast hp
    positivity
  have hbh : u * 5 * 2 / 5 = 2 * u := by
    rw [show u * 5 * 2 = 2 * u * 5 by ring]
    exact Int.mul_ediv_cancel _ h5
  have heven : rectSnapEven (u * 5, 2 * u) = (u * 5, 2 * u) := by
    unfold rectSnapEven
    rw [if_neg]
    dsimp only
    simp [Int.mul_emod_right]
  have hratio : ((u * 5 : ℤ):ℚ)/((2 * u : ℤ):ℚ) = 5/2 := by
    have hu0 : (u:ℚ) ≠ 0 := by
      exact_mod_cast hupos.ne.symm
    push_cast
    field_simp
    ring
  have hunits : rectSnapUnits (u * 5, 2 * u) = (u * 5, 2 * u) := by
    unfold rectSnapUnits
    rw [if_neg (not_not_intro hratio)]
  unfold rectSnapA
  rw [if_pos rfl, ← hu, hbh, heven, hunits]

theorem rectFitA_width (w h : ℤ) (a : ℚ) (minW minH : ℤ) :
    (rectFitA w h a minW minH).width =
      (rectSnapA a (rectMinA a minW minH (rectStep1A w h a))).1 := rfl

theorem rectFitA_height (w h : ℤ) (a : ℚ) (minW minH : ℤ) :
    (rectFitA w h a minW minH).height =
      (rectSnapA a (rectMinA a minW minH (rectStep1A w h a))).2 := rfl

theorem rectFitA_offsetX (w h : ℤ) (a : ℚ) (minW minH : ℤ) :
    (rectFitA w h a minW minH).offsetX =
      jfloor ((((rectFitA w h a minW minH).width - w : ℤ):ℚ)/2) := rfl

theorem rectFitA_offsetY (w h : ℤ) (a : ℚ) (minW minH : ℤ) :
    (rectFitA w h a minW minH).offsetY =
      jfloor ((((rectFitA w h a minW minH).height - h : ℤ):ℚ)/2) := rfl

/-- At ratio 5:2 the exact-math rectangular fit always returns a canvas of the
shape (5u, 2u) with u positive, above the source and above both minimums. -/
theorem rectFitA_52_repr (w h minW minH : ℤ) (hw : 0 < w) (hh : 0 < h)
    (_hmw : 0 < minW) (_hmh : 0 < minH) :
    ∃ u : ℤ, 1 ≤ u ∧
      (rectFitA w h (5/2) minW minH).width = u * 5 ∧
      (rectFitA w h (5/2) minW minH).height = 2 * u ∧
      w ≤ u * 5 ∧ h ≤ 2 * u ∧ minW ≤ u * 5 ∧ minH ≤ 2 * u := by
  have ha : (0:ℚ) < 5/2 := by norm_num
  obtain ⟨s1, s2, s3, s4⟩ := rectStep1A_bounds w h (5/2) hw hh ha
  obtain ⟨m1, m2, m3, m4, m5, m6⟩ :=
    rectMinA_bounds minW minH ha s1 s2 s3 s4
  set p := rectMinA (5/2) minW minH (rectStep1A w h (5/2)) with hpdef
  have hp1 : 1 ≤ p.1 := le_trans hw m1
  have hple : (p.1:ℚ) ≤ ((jceil ((p.1:ℚ)/5) : ℤ):ℚ) * 5 := by
    have := rat_le_jceil ((p.1:ℚ)/5)
    have h50 : (0:ℚ) < 5 := by norm_num
    calc (p.1:ℚ) = (p.1:ℚ)/5 * 5 := by field_simp
      _ ≤ ((jceil ((p.1:ℚ)/5) : ℤ):ℚ) * 5 := mul_le_mul_of_nonneg_right this h50.le
  refine ⟨jceil ((p.1:ℚ)/5), ?_, ?_, ?_, ?_, ?_, ?_, ?_⟩
  · refine jceil_pos ?_
    have hq : (0:ℚ) < (p.1:ℚ) := by exact_mod_cast lt_of_lt_of_le hw m1
    positivity
  · rw [rectFitA_width, ← hpdef, rectSnapA_52 p hp1]
  · rw [rectFitA_height, ← hpdef, rectSnapA_52 p hp1]
  · have : (w:ℚ) ≤ ((jceil ((p.1:ℚ)/5) : ℤ):ℚ) * 5 := by
      refine le_trans ?_ hple
      exact_mod_cast m1
    exact_mod_cast this
  · -- h ≤ 2u via the one-ceil ratio invariant
    refine le_trans m2 (le_trans m5 (jceil_le ?_))
    rw [div_le_iff₀ ha]
    push_cast
    push_cast at hple
    linarith
  · have : (minW:ℚ) ≤ ((jceil ((p.1:ℚ)/5) : ℤ):ℚ) * 5 := by
      refine le_trans ?_ hple
      exact_mod_cast m3
    exact_mod_cast this
  · refine le_trans m4 (le_trans m5 (jceil_le ?_))
    rw [div_le_iff₀ ha]
    push_cast
    push_cast at hple
    linarith

/-- The exact-math rectangular fit contains the source and satisfies both
minimums, for every positive aspect ratio. -/
theorem rectFitA_main (w h minW minH : ℤ) (a : ℚ) (hw : 0 < w) (hh : 0 < h)
    (ha : 0 < a) (hmw : 0 < minW) (hmh : 0 < minH) :
    w ≤ (rectFitA w h a minW minH).width ∧ h ≤ (rectFitA w h a minW minH).height ∧
    minW ≤ (rectFitA w h a minW minH).width ∧
    minH ≤ (rectFitA w h a minW minH).height := by
  by_cases h52 : a = 5/2
  · subst h52
    obtain ⟨u, _, hW, hH, b1, b2, b3, b4⟩ := rectFitA_52_repr w h minW minH hw hh hmw hmh
    rw [hW, hH]
    exact ⟨b1, b2, b3, b4⟩
  · obtain ⟨s1, s2, s3, s4⟩ := rectStep1A_bounds w h a hw hh ha
    obtain ⟨m1, m2, m3, m4, _, _⟩ :=
      rectMinA_bounds minW minH ha s1 s2 s3 s4
    rw [rectFitA_width, rectFitA_height, rectSnapA_ne h52]
    exact ⟨m1, m2, m3, m4⟩

/-- Feeding a canvas of the shape (5u, 2u) that already satisfies both
minimums back into the exact-math rectangular fit returns it unchanged. -/
theorem rectFitA_52_fixed (u minW minH : ℤ) (hu : 1 ≤ u)
    (hminW : minW ≤ u * 5) (hminH : minH ≤ 2 * u) :
    (rectFitA (u * 5) (2 * u) (5/2) minW minH).width = u * 5 ∧
    (rectFitA (u * 5) (2 * u) (5/2) minW minH).height = 2 * u := by
  have hu0 : (u:ℚ) ≠ 0 := by
    have : (0:ℚ) < (u:ℚ) := by exact_mod_cast hu
    exact this.ne.symm
  have hratio : ((u * 5 : ℤ):ℚ)/((2 * u : ℤ):ℚ) = 5/2 := by
    push_cast
    field_simp
    ring
  have hstep : rectStep1A (u * 5) (2 * u) (5/2) = (u * 5, 2 * u) := by
    unfold rectStep1A
    rw [if_neg]
    · rw [show (((2 * u : ℤ)):ℚ) * (5/2) = ((u * 5 : ℤ):ℚ) by push_cast; ring]
      rw [jceil_intCast]
    · rw [hratio]
      norm_num
  have hmin : rectMinA (5/2) minW minH (u * 5, 2 * u) = (u * 5, 2 * u) := by
    unfold rectMinA
    rw [if_neg]
    omega
  have hceilu : jceil (((u * 5 : ℤ):ℚ)/5) = u := by
    rw [show ((u * 5 : ℤ):ℚ)/5 = ((u:ℤ):ℚ) by push_cast; field_simp]
    exact jceil_intCast u
  constructor
  · rw [rectFitA_width, hstep, hmin, rectSnapA_52 _ (by show (1:ℤ) ≤ u * 5; omega), hceilu]
  · rw [rectFitA_height, hstep, hmin, rectSnapA_52 _ (by show (1:ℤ) ≤ u * 5; omega), hceilu]

/- ### The rounded rectangular fit (part_001 copy) -/

theorem rectStep1B_bounds (w h : ℤ) (a : ℚ) (_hw : 0 < w) (hh : 0 < h) (ha : 0 < a) :
    w ≤ (rectStep1B w h a).1 ∧ h ≤ (rectStep1B w h a).2 := by
  have hhq : (0:ℚ) < (h:ℚ) := by exact_mod_cast hh
  unfold rectStep1B
  by_cases hc : (w:ℚ)/(h:ℚ) > a
  · rw [if_pos hc]
    dsimp only
    have hah : a * (h:ℚ) < (w:ℚ) := (lt_div_iff₀ hhq).mp hc
    have hwa : (h:ℚ) ≤ (w:ℚ)/a := by
      rw [le_div_iff₀ ha]
      linarith [mul_comm a (h:ℚ)]
    exact ⟨le_refl w, le_jround hwa⟩
  · rw [if_neg hc]
    dsimp only
    push_neg at hc
    have hwa : (w:ℚ) ≤ (h:ℚ) * a := by
      have := (div_le_iff₀ hhq).mp hc
      linarith [mul_comm a (h:ℚ)]
    exact ⟨le_jround hwa, le_refl h⟩

theorem rectMinB_bounds (minW minH : ℤ) {p : ℤ × ℤ} {w h : ℤ}
    (hw : 0 < w) (hh : 0 < h) (h1 : w ≤ p.1) (h2 : h ≤ p.2) :
    w ≤ (rectMinB minW minH p).1 ∧ h ≤ (rectMinB minW minH p).2 ∧
    minW ≤ (rectMinB minW minH p).1 ∧ minH ≤ (rectMinB minW minH p).2 := by
  have hp1 : (0:ℚ) < (p.1:ℚ) := by exact_mod_cast lt_of_lt_of_le hw h1
  have hp2 : (0:ℚ) < (p.2:ℚ) := by exact_mod_cast lt_of_lt_of_le hh h2
  unfold rectMinB
  by_cases hc : p.1 < minW ∨ p.2 < minH
  · rw [if_pos hc]
    dsimp only
    set sf := max ((minW:ℚ)/(p.1:ℚ)) ((minH:ℚ)/(p.2:ℚ)) with hsf
    have hsf1 : 1 ≤ sf := by
      rcases hc with hc | hc
      · refine le_trans ?_ (le_max_left _ _)
        rw [le_div_iff₀ hp1]
        have : (p.1:ℚ) ≤ (minW:ℚ) := by exact_mod_cast hc.le
        linarith
      · refine le_trans ?_ (le_max_right _ _)
        rw [le_div_iff₀ hp2]
        have : (p.2:ℚ) ≤ (minH:ℚ) := by exact_mod_cast hc.le
        linarith
    have hWsf : (minW:ℚ) ≤ (p.1:ℚ) * sf := by
      have h3 : (minW:ℚ)/(p.1:ℚ) ≤ sf := le_max_left _ _
      calc (minW:ℚ) = (minW:ℚ)/(p.1:ℚ) * (p.1:ℚ) := by field_simp
        _ ≤ sf * (p.1:ℚ) := mul_le_mul_of_nonneg_right h3 hp1.le
        _ = (p.1:ℚ) * sf := mul_comm _ _
    have hHsf : (minH:ℚ) ≤ (p.2:ℚ) * sf := by
      have h3 : (minH:ℚ)/(p.2:ℚ) ≤ sf := le_max_right _ _
      calc (minH:ℚ) = (minH:ℚ)/(p.2:ℚ) * (p.2:ℚ) := by field_simp
        _ ≤ sf * (p.2:ℚ) := mul_le_mul_of_nonneg_right h3 hp2.le
        _ = (p.2:ℚ) * sf := mul_comm _ _
    refine ⟨?_, ?_, le_jround hWsf, le_jround hHsf⟩
    · refine le_jround ?_
      have h4 : (p.1:ℚ) * 1 ≤ (p.1:ℚ) * sf := mul_le_mul_of_nonneg_left hsf1 hp1.le
      have hwp : (w:ℚ) ≤ (p.1:ℚ) := by exact_mod_cast h1
      linarith
    · refine le_jround ?_
      have h4 : (p.2:ℚ) * 1 ≤ (p.2:ℚ) * sf := mul_le_mul_of_nonneg_left hsf1 hp2.le
      have hhp : (h:ℚ) ≤ (p.2:ℚ) := by exact_mod_cast h2
      linarith
  · rw [if_neg hc]
    push_neg at hc
    exact ⟨h1, h2, hc.1, hc.2⟩

theorem rectFitB_width (w h : ℤ) (a : ℚ) (minW minH : ℤ) :
    (rectFitB w h a minW minH).width =
      (rectMinB minW minH (rectStep1B w h a)).1 := rfl

theorem rectFitB_height (w h : ℤ) (a : ℚ) (minW minH : ℤ) :
    (rectFitB w h a minW minH).height =
      (rectMinB minW minH (rectStep1B w h a)).2 := rfl

theorem rectFitB_offsetX (w h : ℤ) (a : ℚ) (minW minH : ℤ) :
    (rectFitB w h a minW minH).offsetX =
      jfloor ((((rectFitB w h a minW minH).width - w : ℤ):ℚ)/2) := rfl

theorem rectFitB_offsetY (w h : ℤ) (a : ℚ) (minW minH : ℤ) :
    (rectFitB w h a minW minH).offsetY =
      jfloor ((((rectFitB w h a minW minH).height - h : ℤ):ℚ)/2) := rfl

/-- The rounded rectangular fit contains the source and satisfies both
minimums, for every positive aspect ratio. -/
theorem rectFitB_main (w h minW minH : ℤ) (a : ℚ) (hw : 0 < w) (hh : 0 < h)
    (ha : 0 < a) :
    w ≤ (rectFitB w h a minW minH).width ∧ h ≤ (rectFitB w h a minW minH).height ∧
    minW ≤ (rectFitB w h a minW minH).width ∧
    minH ≤ (rectFitB w h a minW minH).height := by
  obtain ⟨s1, s2⟩ := rectStep1B_bounds w h a hw hh ha
  obtain ⟨m1, m2, m3, m4⟩ := rectMinB_bounds minW minH hw hh s1 s2
  rw [rectFitB_width, rectFitB_height]
  exact ⟨m1, m2, m3, m4⟩

/- ### The square fit -/

theorem squareFit_main (w h minSize : ℤ) :
    w ≤ (squareFit w h minSize).width ∧ h ≤ (squareFit w h minSize).height ∧
    minSize ≤ (squareFit w h minSize).width ∧
    minSize ≤ (squareFit w h minSize).height ∧
    (squareFit w h minSize).width = (squareFit w h minSize).height := by
  unfold squareFit
  dsimp only
  split_ifs with hc
  · have hwle : w ≤ minSize := le_trans (le_max_left w h) hc.le
    have hhle : h ≤ minSize := le_trans (le_max_right w h) hc.le
    exact ⟨hwle, hhle, le_refl _, le_refl _, rfl⟩
  · exact ⟨le_max_left w h, le_max_right w h, not_lt.mp hc, not_lt.mp hc, rfl⟩

/- ### The headshot fit (part_002) -/

theorem headshotStep1_bounds (w h num den : ℤ) (_hw : 0 < w) (hh : 0 < h)
    (hnum : 0 < num) (hden : 0 < den) :
    w ≤ (headshotStep1 w h num den).1 ∧ h ≤ (headshotStep1 w h num den).2 := by
  have hhq : (0:ℚ) < (h:ℚ) := by exact_mod_cast hh
  have hnq : (0:ℚ) < (num:ℚ) := by exact_mod_cast hnum
  have hdq : (0:ℚ) < (den:ℚ) := by exact_mod_cast hden
  unfold headshotStep1
  by_cases hc : (w:ℚ)/(h:ℚ) > (num:ℚ)/(den:ℚ)
  · rw [if_pos hc]
    dsimp only
    have h1 : (num:ℚ) * (h:ℚ) < (w:ℚ) * (den:ℚ) := (div_lt_div_iff₀ hdq hhq).mp hc
    have h2 : (h:ℚ) ≤ ((w * den : ℤ):ℚ)/(num:ℚ) := by
      rw [le_div_iff₀ hnq]
      push_cast
      linarith
    exact ⟨le_refl w, le_jceil h2⟩
  · rw [if_neg hc]
    dsimp only
    push_neg at hc
    have h1 : (w:ℚ) * (den:ℚ) ≤ (num:ℚ) * (h:ℚ) := (div_le_div_iff₀ hhq hdq).mp hc
    have h2 : (w:ℚ) ≤ ((h * num : ℤ):ℚ)/(den:ℚ) := by
      rw [le_div_iff₀ hdq]
      push_cast
      linarith
    exact ⟨le_jceil h2, le_refl h⟩

/-- If the headshot minimum-enforcement branch is entered at the default
profile, the source was at most 292 wide and at most 400 tall. -/
theorem headshotStep1_default_small (w h : ℤ) (hw : 0 < w) (hh : 0 < h)
    (hc : (headshotStep1 w h 73 100).1 < 292 ∨ (headshotStep1 w h 73 100).2 < 400) :
    w ≤ 292 ∧ h ≤ 400 := by
  have hhq : (0:ℚ) < (h:ℚ) := by exact_mod_cast hh
  have h73 : (0:ℚ) < ((73:ℤ):ℚ) := by norm_num
  have h100 : (0:ℚ) < ((100:ℤ):ℚ) := by norm_num
  unfold headshotStep1 at hc
  by_cases hb : (w:ℚ)/(h:ℚ) > ((73:ℤ):ℚ)/((100:ℤ):ℚ)
  · rw [if_pos hb] at hc
    dsimp only at hc
    have hwh : ((73:ℤ):ℚ) * (h:ℚ) < (w:ℚ) * ((100:ℤ):ℚ) := (div_lt_div_iff₀ h100 hhq).mp hb
    have hwh2 : 73 * h < w * 100 := by exact_mod_cast hwh
    have hwle : w ≤ 291 := by
      rcases hc with hc | hc
      · -- w < 292; also 73h < 100w gives nothing more needed, but w ≤ 291 needs w < 292
        omega
      · have h1 : ((w * 100 : ℤ):ℚ)/((73:ℤ):ℚ) ≤ ((399:ℤ):ℚ) := jceil_le_iff.mp (by omega)
        rw [div_le_iff₀ h73] at h1
        have h2 : w * 100 ≤ 399 * 73 := by exact_mod_cast h1
        omega
    exact ⟨by omega, by omega⟩
  · rw [if_neg hb] at hc
    dsimp only at hc
    push_neg at hb
    have hwh : (w:ℚ) * ((100:ℤ):ℚ) ≤ ((73:ℤ):ℚ) * (h:ℚ) := (div_le_div_iff₀ hhq h100).mp hb
    have hwh2 : w * 100 ≤ 73 * h := by exact_mod_cast hwh
    have hhle : h ≤ 399 := by
      rcases hc with hc | hc
      · have h1 : ((h * 73 : ℤ):ℚ)/((100:ℤ):ℚ) ≤ ((291:ℤ):ℚ) := jceil_le_iff.mp (by omega)
        rw [div_le_iff₀ h100] at h1
        have h2 : h * 73 ≤ 291 * 100 := by exact_mod_cast h1
        omega
      · omega
    exact ⟨by omega, by omega⟩

/-- At the default profile both branches of the limiting-dimension choice
produce exactly the canvas 292 x 400. -/
theorem headshotMinPick_default (p : ℤ × ℤ) :
    headshotMinPick 73 100 292 400 p = (292, 400) := by
  unfold headshotMinPick
  have e1 : jceil (((292 * 100 : ℤ) : ℚ)/((73:ℤ):ℚ)) = 400 := by
    rw [show ((292 * 100 : ℤ) : ℚ)/((73:ℤ):ℚ) = ((400:ℤ):ℚ) by push_cast; norm_num]
    exact jceil_intCast 400
  have e2 : jceil (((400 * 73 : ℤ) : ℚ)/((100:ℤ):ℚ)) = 292 := by
    rw [show ((400 * 73 : ℤ) : ℚ)/((100:ℤ):ℚ) = ((292:ℤ):ℚ) by push_cast; norm_num]
    exact jceil_intCast 292
  split_ifs
  · rw [e1]
  · rw [e2]

/-- Whenever the minimum-enforcement branch of the headshot fit is entered at
the default profile, the resulting canvas is exactly 292 x 400 (hence at the
exact 73:100 ratio). -/
theorem headshotMin_default_entered (p : ℤ × ℤ) (hc : p.1 < 292 ∨ p.2 < 400) :
    headshotMin 73 100 292 400 p = (292, 400) := by
  unfold headshotMin
  rw [if_pos hc, headshotMinPick_default]
  have hb : headshotBump 292 400 ((292:ℤ), (400:ℤ)) = (292, 400) := by
    unfold headshotBump
    norm_num
  rw [hb]
  have habs : ¬ (|(((292:ℤ)):ℚ)/(((400:ℤ)):ℚ) - ((73:ℤ):ℚ)/((100:ℤ):ℚ)| > 1/10000) := by
    have e : (((292:ℤ)):ℚ)/(((400:ℤ)):ℚ) - ((73:ℤ):ℚ)/((100:ℤ):ℚ) = 0 := by
      push_cast
      norm_num
    rw [e]
    norm_num
  unfold headshotVerify
  rw [if_neg habs]

theorem headshotFit_width (w h num den minW minH : ℤ) :
    (headshotFit w h num den minW minH).width =
      (headshotMin num den minW minH (headshotStep1 w h num den)).1 := rfl

theorem headshotFit_height (w h num den minW minH : ℤ) :
    (headshotFit w h num den minW minH).height =
      (headshotMin num den minW minH (headshotStep1 w h num den)).2 := rfl

theorem headshotFit_offsetX (w h num den minW minH : ℤ) :
    (headshotFit w h num den minW minH).offsetX =
      jfloor ((((headshotFit w h num den minW minH).width - w : ℤ):ℚ)/2) := rfl

theorem headshotFit_offsetY (w h num den minW minH : ℤ) :
    (headshotFit w h num den minW minH).offsetY =
      jfloor ((((headshotFit w h num den minW minH).height - h : ℤ):ℚ)/2) := rfl

/-- At the default profile the headshot fit contains the source and satisfies
both minimums. -/
theorem headshotFit_default_main (w h : ℤ) (hw : 0 < w) (hh : 0 < h) :
    292 ≤ (headshotFit w h 73 100 292 400).width ∧
    400 ≤ (headshotFit w h 73 100 292 400).height ∧
    w ≤ (headshotFit w h 73 100 292 400).width ∧
    h ≤ (headshotFit w h 73 100 292 400).height := by
  obtain ⟨s1, s2⟩ := headshotStep1_bounds w h 73 100 hw hh (by norm_num) (by norm_num)
  rw [headshotFit_width, headshotFit_height]
  by_cases hc : (headshotStep1 w h 73 100).1 < 292 ∨ (headshotStep1 w h 73 100).2 < 400
  · obtain ⟨hw292, hh400⟩ := headshotStep1_default_small w h hw hh hc
    rw [headshotMin_default_entered _ hc]
    exact ⟨le_refl _, le_refl _, hw292, hh400⟩
  · unfold headshotMin
    rw [if_neg hc]
    push_neg at hc
    exact ⟨hc.1, hc.2, s1, s2⟩

/- ### The favicon fit -/

theorem icoCanvasSize_eq : icoCanvasSize = 64 := by decide

theorem icoFit_scaledW (w h : ℤ) :
    (icoFit w h).scaledW =
      jround ((w:ℚ) * min ((icoCanvasSize:ℚ)/(w:ℚ)) ((icoCanvasSize:ℚ)/(h:ℚ))) := rfl

theorem icoFit_scaledH (w h : ℤ) :
    (icoFit w h).scaledH =
      jround ((h:ℚ) * min ((icoCanvasSize:ℚ)/(w:ℚ)) ((icoCanvasSize:ℚ)/(h:ℚ))) := rfl

theorem icoFit_x (w h : ℤ) :
    (icoFit w h).x = jfloor (((icoCanvasSize - (icoFit w h).scaledW : ℤ):ℚ)/2) := rfl

theorem icoFit_y (w h : ℤ) :
    (icoFit w h).y = jfloor (((icoCanvasSize - (icoFit w h).scaledH : ℤ):ℚ)/2) := rfl

/-- The scaled favicon content fits inside the fixed canvas, the larger
dimension is scaled to exactly the canvas side, and the centering offsets are
non-negative. -/
theorem icoFit_main (w h : ℤ) (hw : 0 < w) (hh : 0 < h) :
    (icoFit w h).scaledW ≤ 64 ∧ (icoFit w h).scaledH ≤ 64 ∧
    ((icoFit w h).scaledW = 64 ∨ (icoFit w h).scaledH = 64) ∧
    0 ≤ (icoFit w h).x ∧ 0 ≤ (icoFit w h).y := by
  have hwq : (0:ℚ) < (w:ℚ) := by exact_mod_cast hw
  have hhq : (0:ℚ) < (h:ℚ) := by exact_mod_cast hh
  have hsz : ((icoCanvasSize : ℤ):ℚ) = (64:ℚ) := by
    rw [icoCanvasSize_eq]
    norm_num
  have hW : (w:ℚ) * min ((icoCanvasSize:ℚ)/(w:ℚ)) ((icoCanvasSize:ℚ)/(h:ℚ)) ≤ 64 := by
    calc (w:ℚ) * min ((icoCanvasSize:ℚ)/(w:ℚ)) ((icoCanvasSize:ℚ)/(h:ℚ))
        ≤ (w:ℚ) * ((icoCanvasSize:ℚ)/(w:ℚ)) :=
          mul_le_mul_of_nonneg_left (min_le_left _ _) hwq.le
      _ = (icoCanvasSize:ℚ) := by field_simp
      _ = 64 := hsz
  have hH : (h:ℚ) * min ((icoCanvasSize:ℚ)/(w:ℚ)) ((icoCanvasSize:ℚ)/(h:ℚ)) ≤ 64 := by
    calc (h:ℚ) * min ((icoCanvasSize:ℚ)/(w:ℚ)) ((icoCanvasSize:ℚ)/(h:ℚ))
        ≤ (h:ℚ) * ((icoCanvasSize:ℚ)/(h:ℚ)) :=
          mul_le_mul_of_nonneg_left (min_le_right _ _) hhq.le
      _ = (icoCanvasSize:ℚ) := by field_simp
      _ = 64 := hsz
  have hWle : (icoFit w h).scaledW ≤ 64 := by
    rw [icoFit_scaledW]
    refine jround_le ?_
    exact_mod_cast hW
  have hHle : (icoFit w h).scaledH ≤ 64 := by
    rw [icoFit_scaledH]
    refine jround_le ?_
    exact_mod_cast hH
  refine ⟨hWle, hHle, ?_, ?_, ?_⟩
  · rcases le_total (h:ℚ) (w:ℚ) with hcase | hcase
    · left
      rw [icoFit_scaledW]
      have hmin : min ((icoCanvasSize:ℚ)/(w:ℚ)) ((icoCanvasSize:ℚ)/(h:ℚ)) =
          (icoCanvasSize:ℚ)/(w:ℚ) := by
        refine min_eq_left ?_
        rw [hsz]
        gcongr
      rw [hmin, show (w:ℚ) * ((icoCanvasSize:ℚ)/(w:ℚ)) = ((64:ℤ):ℚ) by
        field_simp
        rw [hsz]]
      exact jround_intCast 64
    · right
      rw [icoFit_scaledH]
      have hmin : min ((icoCanvasSize:ℚ)/(w:ℚ)) ((icoCanvasSize:ℚ)/(h:ℚ)) =
          (icoCanvasSize:ℚ)/(h:ℚ) := by
        refine min_eq_right ?_
        rw [hsz]
        gcongr
      rw [hmin, show (h:ℚ) * ((icoCanvasSize:ℚ)/(h:ℚ)) = ((64:ℤ):ℚ) by
        field_simp
        rw [hsz]]
      exact jround_intCast 64
  · rw [icoFit_x]
    refine jfloor_half_nonneg ?_
    rw [icoCanvasSize_eq]
    exact hWle
  · rw [icoFit_y]
    refine jfloor_half_nonneg ?_
    rw [icoCanvasSize_eq]
    exact hHle

/- ### The CropperComponent headshot -/

/-- Unfolded form of the scaling branch of the CropperComponent headshot. -/
theorem cropperHeadshot_eq (w h num den minW minH : ℤ) :
    cropperHeadshot w h num den minW minH =
      if cropperBaseWidth num w < minW ∨ cropperBaseWidth num w * den / num < minH then
        ⟨jround ((cropperBaseWidth num w : ℚ) *
            max ((minW:ℚ)/(cropperBaseWidth num w : ℚ))
                ((minH:ℚ)/((cropperBaseWidth num w * den / num : ℤ):ℚ))),
         jround (((cropperBaseWidth num w * den / num : ℤ):ℚ) *
            max ((minW:ℚ)/(cropperBaseWidth num w : ℚ))
                ((minH:ℚ)/((cropperBaseWidth num w * den / num : ℤ):ℚ))),
         (w:ℚ) * ((jround ((cropperBaseWidth num w : ℚ) *
            max ((minW:ℚ)/(cropperBaseWidth num w : ℚ))
                ((minH:ℚ)/((cropperBaseWidth num w * den / num : ℤ):ℚ))) : ℚ) /
              (cropperBaseWidth num w : ℚ)),
         (h:ℚ) * ((jround (((cropperBaseWidth num w * den / num : ℤ):ℚ) *
            max ((minW:ℚ)/(cropperBaseWidth num w : ℚ))
                ((minH:ℚ)/((cropperBaseWidth num w * den / num : ℤ):ℚ))) : ℚ) /
              ((cropperBaseWidth num w * den / num : ℤ):ℚ)),
         Fill.white⟩
      else ⟨cropperBaseWidth num w, cropperBaseWidth num w * den / num,
            (w:ℚ), (h:ℚ), Fill.white⟩ := rfl

/-- When the ratio-padded base canvas already meets both minimums the
CropperComponent headshot draws the source at its own size. -/
theorem cropperHeadshot_noscale (w h num den minW minH : ℤ)
    (hc : ¬(cropperBaseWidth num w < minW ∨ cropperBaseWidth num w * den / num < minH)) :
    cropperHeadshot w h num den minW minH =
      ⟨cropperBaseWidth num w, cropperBaseWidth num w * den / num,
       (w:ℚ), (h:ℚ), Fill.white⟩ := by
  rw [cropperHeadshot_eq, if_neg hc]

/-- The CropperComponent headshot always fills the canvas white. -/
theorem cropperHeadshot_background (w h num den minW minH : ℤ) :
    (cropperHeadshot w h num den minW minH).background = Fill.white := by
  rw [cropperHeadshot_eq]
  split_ifs <;> rfl

theorem cropperBaseWidth_73 (w : ℤ) :
    cropperBaseWidth 73 w = 73 * max 1 (jceil ((w:ℚ)/((73:ℤ):ℚ))) := rfl

/-- At the default headshot profile the base dimensions are (73k, 100k) and
the two shortfall scales coincide at 4/k, so the scaled canvas is exactly
292 x 400 whenever scaling happens at all. -/
theorem cropperHeadshot_default_dims (w h : ℤ) :
    ((cropperHeadshot w h 73 100 292 400).canvasW = 292 ∧
     (cropperHeadshot w h 73 100 292 400).canvasH = 400) ∨
    (∃ k : ℤ, 4 ≤ k ∧ (cropperHeadshot w h 73 100 292 400).canvasW = 73 * k ∧
     (cropperHeadshot w h 73 100 292 400).canvasH = 100 * k) := by
  set k := max 1 (jceil ((w:ℚ)/((73:ℤ):ℚ))) with hk
  have hk1 : 1 ≤ k := le_max_left _ _
  have hkq : ((k:ℤ):ℚ) ≠ 0 := by
    have : (0:ℚ) < (k:ℚ) := by exact_mod_cast lt_of_lt_of_le one_pos hk1
    exact this.ne.symm
  have hbw : cropperBaseWidth 73 w = 73 * k := rfl
  have hbh : (73 * k) * 100 / 73 = 100 * k := by
    rw [show (73:ℤ) * k * 100 = 73 * (100 * k) by ring]
    exact Int.mul_ediv_cancel_left _ (by norm_num)
  by_cases hc : cropperBaseWidth 73 w < 292 ∨ cropperBaseWidth 73 w * 100 / 73 < 400
  · left
    rw [cropperHeadshot_eq, if_pos hc, hbw, hbh]
    dsimp only
    have e1 : (((292:ℤ)):ℚ)/(((73 * k : ℤ)):ℚ) = 4/(k:ℚ) := by
      push_cast
      rw [div_eq_div_iff]
      · ring
      · have : (0:ℚ) < (k:ℚ) := by exact_mod_cast lt_of_lt_of_le one_pos hk1
        positivity
      · have : (0:ℚ) < (k:ℚ) := by exact_mod_cast lt_of_lt_of_le one_pos hk1
        exact this.ne.symm
    have e2 : (((400:ℤ)):ℚ)/(((100 * k : ℤ)):ℚ) = 4/(k:ℚ) := by
      push_cast
      rw [div_eq_div_iff]
      · ring
      · have : (0:ℚ) < (k:ℚ) := by exact_mod_cast lt_of_lt_of_le one_pos hk1
        positivity
      · have : (0:ℚ) < (k:ℚ) := by exact_mod_cast lt_of_lt_of_le one_pos hk1
        exact this.ne.symm
    rw [e1, e2, max_self]
    constructor
    · rw [show ((73 * k : ℤ):ℚ) * (4/(k:ℚ)) = ((292:ℤ):ℚ) by
        push_cast
        field_simp
        ring]
      exact jround_intCast 292
    · rw [show ((100 * k : ℤ):ℚ) * (4/(k:ℚ)) = ((400:ℤ):ℚ) by
        push_cast
        field_simp
        ring]
      exact jround_intCast 400
  · right
    refine ⟨k, ?_, ?_, ?_⟩
    · rw [hbw, hbh] at hc
      push_neg at hc
      omega
    · rw [cropperHeadshot_eq, if_neg hc]
      exact hbw
    · rw [cropperHeadshot_eq, if_neg hc]
      rw [hbw, hbh]

/-- Refitting the scaled default canvas 292 x 400 returns it unchanged. -/
theorem cropperHeadshot_refit_292 :
    (cropperHeadshot 292 400 73 100 292 400).canvasW = 292 ∧
    (cropperHeadshot 292 400 73 100 292 400).canvasH = 400 := by
  have hbw : cropperBaseWidth 73 292 = 292 := by
    rw [cropperBaseWidth_73]
    rw [jceil_eval (q := ((292:ℤ):ℚ)/((73:ℤ):ℚ)) (z := 4) (by push_cast; norm_num)
      (by push_cast; norm_num)]
    decide
  have hc : ¬(cropperBaseWidth 73 292 < 292 ∨ cropperBaseWidth 73 292 * 100 / 73 < 400) := by
    rw [hbw]
    decide
  rw [cropperHeadshot_noscale _ _ _ _ _ _ hc]
  rw [hbw]
  constructor
  · rfl
  · decide

/-- Refitting an unscaled default canvas (73k, 100k) returns it unchanged. -/
theorem cropperHeadshot_refit_73k (k : ℤ) (hk : 4 ≤ k) :
    (cropperHeadshot (73 * k) (100 * k) 73 100 292 400).canvasW = 73 * k ∧
    (cropperHeadshot (73 * k) (100 * k) 73 100 292 400).canvasH = 100 * k := by
  have hbw : cropperBaseWidth 73 (73 * k) = 73 * k := by
    rw [cropperBaseWidth_73]
    rw [show (((73 * k : ℤ)):ℚ)/(((73:ℤ)):ℚ) = ((k:ℤ):ℚ) by
      push_cast
      field_simp]
    rw [jceil_intCast]
    rw [max_eq_right (by omega : (1:ℤ) ≤ k)]
  have hbh : cropperBaseWidth 73 (73 * k) * 100 / 73 = 100 * k := by
    rw [hbw, show (73:ℤ) * k * 100 = 73 * (100 * k) by ring]
    exact Int.mul_ediv_cancel_left _ (by norm_num)
  have hc : ¬(cropperBaseWidth 73 (73 * k) < 292 ∨
      cropperBaseWidth 73 (73 * k) * 100 / 73 < 400) := by
    rw [hbh, hbw]
    omega
  rw [cropperHeadshot_noscale _ _ _ _ _ _ hc]
  exact ⟨hbw, hbh⟩

/-- Re-running the CropperComponent headshot on its own output canvas leaves
the canvas dimensions unchanged (default profile). -/
theorem cropperHeadshot_default_idem (w h : ℤ) :
    (cropperHeadshot (cropperHeadshot w h 73 100 292 400).canvasW
        (cropperHeadshot w h 73 100 292 400).canvasH 73 100 292 400).canvasW =
      (cropperHeadshot w h 73 100 292 400).canvasW ∧
    (cropperHeadshot (cropperHeadshot w h 73 100 292 400).canvasW
        (cropperHeadshot w h 73 100 292 400).canvasH 73 100 292 400).canvasH =
      (cropperHeadshot w h 73 100 292 400).canvasH := by
  rcases cropperHeadshot_default_dims w h with ⟨hW, hH⟩ | ⟨k, hk, hW, hH⟩
  · rw [hW, hH]
    exact cropperHeadshot_refit_292
  · rw [hW, hH]
    exact cropperHeadshot_refit_73k k hk

/- ### The color keyer -/

theorem distSq_nonneg (p : Pixel) (s : KeyingSpec) : 0 ≤ distSq p s := by
  unfold distSq
  positivity

/-- The comparison made by the source, sqrt(distSq) < tolerance over the
reals, agrees with the squared comparison used by the executable embedding
whenever the tolerance is non-negative. -/
theorem sqrt_dist_lt_iff (p : Pixel) (s : KeyingSpec) (ht : 0 ≤ s.tolerance) :
    (Real.sqrt ((distSq p s : ℤ) : ℝ) < ((s.tolerance : ℚ) : ℝ)) ↔
      ((distSq p s : ℤ) : ℚ) < s.tolerance^2 := by
  rcases eq_or_lt_of_le ht with h0 | h0
  · have hd : (0:ℚ) ≤ ((distSq p s : ℤ) : ℚ) := by exact_mod_cast distSq_nonneg p s
    constructor
    · intro hlt
      exfalso
      have := Real.sqrt_nonneg ((distSq p s : ℤ) : ℝ)
      rw [← h0] at hlt
      push_cast at hlt
      linarith
    · intro hlt
      exfalso
      rw [← h0] at hlt
      simp at hlt
      have := distSq_nonneg p s
      omega
  · have h0R : (0:ℝ) < ((s.tolerance : ℚ) : ℝ) := by exact_mod_cast h0
    rw [Real.sqrt_lt' h0R]
    constructor
    · intro hlt
      exact_mod_cast hlt
    · intro hlt
      exact_mod_cast hlt

/-- Per-pixel characterisation of removeBackground: RGB unchanged, alpha
zeroed exactly on pixels whose Euclidean distance to the target is below the
tolerance, alpha unchanged otherwise. -/
theorem keyPixel_spec (p : Pixel) (s : KeyingSpec) (ht : 0 ≤ s.tolerance) :
    (keyPixel s p).r = p.r ∧ (keyPixel s p).g = p.g ∧ (keyPixel s p).b = p.b ∧
    (Real.sqrt ((distSq p s : ℤ) : ℝ) < ((s.tolerance : ℚ) : ℝ) →
      (keyPixel s p).a = 0) ∧
    (((s.tolerance : ℚ) : ℝ) ≤ Real.sqrt ((distSq p s : ℤ) : ℝ) →
      (keyPixel s p).a = p.a) := by
  unfold keyPixel
  by_cases hc : ((distSq p s : ℤ) : ℚ) < s.tolerance^2
  · rw [if_pos hc]
    refine ⟨rfl, rfl, rfl, fun _ => rfl, fun hge => ?_⟩
    exfalso
    have := (sqrt_dist_lt_iff p s ht).mpr hc
    linarith
  · rw [if_neg hc]
    refine ⟨rfl, rfl, rfl, fun hlt => ?_, fun _ => rfl⟩
    exact absurd ((sqrt_dist_lt_iff p s ht).mp hlt) hc

theorem removeBackground_width (bmp : Bitmap) (s : KeyingSpec) :
    (removeBackground bmp s).width = bmp.width := rfl

theorem removeBackground_height (bmp : Bitmap) (s : KeyingSpec) :
    (removeBackground bmp s).height = bmp.height := rfl

theorem removeBackground_data (bmp : Bitmap) (s : KeyingSpec) :
    (removeBackground bmp s).data = bmp.data.map (keyPixel s) := rfl

theorem squareFit_offsetX (w h minSize : ℤ) :
    (squareFit w h minSize).offsetX =
      jfloor ((((squareFit w h minSize).width - w : ℤ):ℚ)/2) := rfl

theorem squareFit_offsetY (w h minSize : ℤ) :
    (squareFit w h minSize).offsetY =
      jfloor ((((squareFit w h minSize).height - h : ℤ):ℚ)/2) := rfl

/- ### Concrete evaluations (the kernel does not evaluate rational
arithmetic, so each closed value is certified through the eq_iff bounds) -/

theorem headshotStep1_eval_50_80 : headshotStep1 50 80 73 100 = (59, 80) := by
  norm_num [headshotStep1, jceil, Int.ceil_eq_iff]

theorem headshotFit_eval_50_80 :
    (headshotFit 50 80 73 100 292 400).width = 292 ∧
    (headshotFit 50 80 73 100 292 400).height = 400 := by
  rw [headshotFit_width, headshotFit_height, headshotStep1_eval_50_80,
    headshotMin_default_entered _ (by decide)]
  exact ⟨rfl, rfl⟩

theorem headshotStep1_eval_500_100 : headshotStep1 500 100 73 100 = (500, 685) := by
  norm_num [headshotStep1, jceil, Int.ceil_eq_iff]

theorem headshotFit_eval_500_100 :
    (headshotFit 500 100 73 100 292 400).width = 500 ∧
    (headshotFit 500 100 73 100 292 400).height = 685 := by
  rw [headshotFit_width, headshotFit_height, headshotStep1_eval_500_100,
    show headshotMin 73 100 292 400 (500, 685) = (500, 685) by norm_num [headshotMin]]
  exact ⟨rfl, rfl⟩

theorem headshotStep1_eval_1_1 : headshotStep1 1 1 73 100 = (1, 2) := by
  norm_num [headshotStep1, jceil, Int.ceil_eq_iff]

theorem headshotMin_eval_1_2_custom : headshotMin 73 100 10 15 (1, 2) = (10, 14) := by
  norm_num [headshotMin, headshotMinPick, headshotBump, headshotVerify, jceil,
    Int.ceil_eq_iff, lt_abs,
    show (⌈(1000:ℚ)/73⌉:ℤ) = 14 by rw [Int.ceil_eq_iff]; constructor <;> norm_num]

theorem headshotFit_eval_1_1_custom :
    (headshotFit 1 1 73 100 10 15).width = 10 ∧
    (headshotFit 1 1 73 100 10 15).height = 14 := by
  rw [headshotFit_width, headshotFit_height, headshotStep1_eval_1_1,
    headshotMin_eval_1_2_custom]
  exact ⟨rfl, rfl⟩

theorem rectFitB_eval_0_10 : rectFitB 0 10 (5/2) 400 160 = ⟨400, 160, 200, 75⟩ := by
  norm_num [rectFitB, rectMinB, rectStep1B, jround, jfloor, Int.floor_eq_iff,
    FitResult.mk.injEq, max_def]

theorem rectFitA_eval_10_10_23 :
    (rectFitA 10 10 (23/10) 400 160).width = 400 ∧
    (rectFitA 10 10 (23/10) 400 160).height = 174 := by
  rw [rectFitA_width, rectFitA_height, rectSnapA_ne (by norm_num),
    show rectMinA (23/10) 400 160 (rectStep1A 10 10 (23/10)) = (400, 174) by
      norm_num [rectStep1A, rectMinA, rectMinA2, jceil, Int.ceil_eq_iff,
        show (⌈(4000:ℚ)/23⌉:ℤ) = 174 by rw [Int.ceil_eq_iff]; constructor <;> norm_num]]
  exact ⟨rfl, rfl⟩

theorem rectFitA_eval_400_174_23 :
    (rectFitA 400 174 (23/10) 400 160).width = 401 := by
  rw [rectFitA_width, rectSnapA_ne (by norm_num),
    show rectMinA (23/10) 400 160 (rectStep1A 400 174 (23/10)) = (401, 174) by
      norm_num [rectStep1A, rectMinA, rectMinA2, jceil, Int.ceil_eq_iff,
        show (⌈(2001:ℚ)/5⌉:ℤ) = 401 by rw [Int.ceil_eq_iff]; constructor <;> norm_num]]

theorem icoFit_eval_1000_10 : icoFit 1000 10 = ⟨64, 1, 0, 31⟩ := by
  norm_num [icoFit, icoCanvasSize, jround, jfloor, Int.floor_eq_iff, min_def,
    IcoResult.mk.injEq]

theorem cropperHeadshot_eval_50_80 :
    cropperHeadshot 50 80 73 100 292 400 = ⟨292, 400, 200, 320, Fill.white⟩ := by
  norm_num [cropperHeadshot, cropperBaseWidth, jround, jceil, Int.ceil_eq_iff,
    Int.floor_eq_iff, max_def, CropperResult.mk.injEq,
    show (⌈(50:ℚ)/73⌉:ℤ) = 1 by rw [Int.ceil_eq_iff]; constructor <;> norm_num,
    show (⌊(585:ℚ)/2⌋:ℤ) = 292 by rw [Int.floor_eq_iff]; constructor <;> norm_num,
    show (⌊(801:ℚ)/2⌋:ℤ) = 400 by rw [Int.floor_eq_iff]; constructor <;> norm_num]

theorem cropperBaseWidth_eval_300 : cropperBaseWidth 73 300 = 365 := by
  norm_num [cropperBaseWidth, jceil,
    show (⌈(300:ℚ)/73⌉:ℤ) = 5 by rw [Int.ceil_eq_iff]; constructor <;> norm_num]

/- ### Claims -/

/-- Claim C1 counterexample: the headshot fit of a 500 x 100 source at ratio
73:100 with minimums 292 x 400 returns the canvas 500 x 685, and
500 * 100 = 50000 differs from 685 * 73 = 50005, so the fit does not satisfy
canvasWidth * ratio.den = canvasHeight * ratio.num as an exact integer
equality on every valid input. -/
theorem headshot_exact_ratio_cex :
    (headshotFit 500 100 73 100 292 400).width = 500 ∧
    (headshotFit 500 100 73 100 292 400).height = 685 ∧
    ¬((headshotFit 500 100 73 100 292 400).width * 100 =
      (headshotFit 500 100 73 100 292 400).height * 73) := by
  obtain ⟨h1, h2⟩ := headshotFit_eval_500_100
  refine ⟨h1, h2, ?_⟩
  rw [h1, h2]
  decide

/-- Claim C1 (corrected): exact integer ratio equality holds for the
exact-math rectangular-logo fit at its 5:2 ratio (width * 2 = height * 5 for
every valid input); for the headshot fit it holds exactly on the
minimum-enforcement branch, which at the default profile always returns the
canvas 292 x 400; outside that branch the Math.ceil derivation can break the
equality (see the counterexample). -/
theorem ratio_exactness_amended :
    (∀ w h minW minH : ℤ, 0 < w → 0 < h → 0 < minW → 0 < minH →
      (rectFitA w h (5/2) minW minH).width * 2 =
        (rectFitA w h (5/2) minW minH).height * 5) ∧
    (∀ w h : ℤ, 0 < w → 0 < h →
      ((headshotStep1 w h 73 100).1 < 292 ∨ (headshotStep1 w h 73 100).2 < 400) →
      (headshotFit w h 73 100 292 400).width = 292 ∧
      (headshotFit w h 73 100 292 400).height = 400) := by
  constructor
  · intro w h minW minH hw hh hmw hmh
    obtain ⟨u, _, hW, hH, _, _, _, _⟩ := rectFitA_52_repr w h minW minH hw hh hmw hmh
    rw [hW, hH]
    ring
  · intro w h _hw _hh hc
    rw [headshotFit_width, headshotFit_height, headshotMin_default_entered _ hc]
    exact ⟨rfl, rfl⟩

/-- Claim C1 witness: the amended theorem applied at source 10 x 10 with the
default rectangular profile and at source 50 x 80 with the default headshot
profile. -/
theorem ratio_exactness_amended_witness :
    ((0:ℤ) < 10 ∧ (0:ℤ) < 400 ∧ (0:ℤ) < 160 ∧
      (rectFitA 10 10 (5/2) 400 160).width * 2 =
        (rectFitA 10 10 (5/2) 400 160).height * 5) ∧
    ((0:ℤ) < 50 ∧ (0:ℤ) < 80 ∧ (headshotStep1 50 80 73 100).1 < 292 ∧
      ((headshotFit 50 80 73 100 292 400).width = 292 ∧
       (headshotFit 50 80 73 100 292 400).height = 400)) := by
  constructor
  · exact ⟨by decide, by decide, by decide,
      ratio_exactness_amended.1 10 10 400 160 (by decide) (by decide) (by decide) (by decide)⟩
  · refine ⟨by decide, by decide, ?_, ?_⟩
    · rw [headshotStep1_eval_50_80]
      decide
    · exact ratio_exactness_amended.2 50 80 (by decide) (by decide)
        (Or.inl (by rw [headshotStep1_eval_50_80]; decide))

/-- Claim C2 counterexample: with source 1 x 1, ratio 73:100 and caller-chosen
minimums 10 x 15, the headshot fit returns the canvas 10 x 14, whose height is
below the minimum height 15: the ratio-verification branch undoes the minimum
bump. -/
theorem headshot_min_violation_cex :
    (headshotFit 1 1 73 100 10 15).width = 10 ∧
    (headshotFit 1 1 73 100 10 15).height = 14 ∧
    (headshotFit 1 1 73 100 10 15).height < 15 := by
  obtain ⟨h1, h2⟩ := headshotFit_eval_1_1_custom
  refine ⟨h1, h2, ?_⟩
  rw [h2]
  decide

/-- Claim C2 (corrected): canvasWidth >= minWidth and canvasHeight >=
minHeight hold for every valid input in both rectangular-logo fits and in the
square-logo fit, and in the headshot fit at its default profile (ratio 73:100,
minimums 292 x 400); for arbitrary caller-supplied minimums the headshot
ratio-verification branch can return a height below minHeight (see the
counterexample). -/
theorem min_bounds_amended :
    (∀ w h minW minH : ℤ, ∀ a : ℚ, 0 < w → 0 < h → 0 < a → 0 < minW → 0 < minH →
      minW ≤ (rectFitA w h a minW minH).width ∧
      minH ≤ (rectFitA w h a minW minH).height) ∧
    (∀ w h minW minH : ℤ, ∀ a : ℚ, 0 < w → 0 < h → 0 < a →
      minW ≤ (rectFitB w h a minW minH).width ∧
      minH ≤ (rectFitB w h a minW minH).height) ∧
    (∀ w h minSize : ℤ, minSize ≤ (squareFit w h minSize).width ∧
      minSize ≤ (squareFit w h minSize).height) ∧
    (∀ w h : ℤ, 0 < w → 0 < h →
      292 ≤ (headshotFit w h 73 100 292 400).width ∧
      400 ≤ (headshotFit w h 73 100 292 400).height) := by
  refine ⟨?_, ?_, ?_, ?_⟩
  · intro w h minW minH a hw hh ha hmw hmh
    obtain ⟨_, _, m3, m4⟩ := rectFitA_main w h minW minH a hw hh ha hmw hmh
    exact ⟨m3, m4⟩
  · intro w h minW minH a hw hh ha
    obtain ⟨_, _, m3, m4⟩ := rectFitB_main w h minW minH a hw hh ha
    exact ⟨m3, m4⟩
  · intro w h minSize
    obtain ⟨_, _, m3, m4, _⟩ := squareFit_main w h minSize
    exact ⟨m3, m4⟩
  · intro w h hw hh
    obtain ⟨m1, m2, _, _⟩ := headshotFit_default_main w h hw hh
    exact ⟨m1, m2⟩

/-- Claim C2 witness: the amended theorem applied at concrete inputs for each
of the four paths. -/
theorem min_bounds_amended_witness :
    ((0:ℤ) < 10 ∧ (0:ℚ) < 5/2 ∧
      (400 ≤ (rectFitA 10 10 (5/2) 400 160).width ∧
       160 ≤ (rectFitA 10 10 (5/2) 400 160).height)) ∧
    (400 ≤ (rectFitB 10 10 (5/2) 400 160).width ∧
      160 ≤ (rectFitB 10 10 (5/2) 400 160).height) ∧
    (40 ≤ (squareFit 10 20 40).width ∧ 40 ≤ (squareFit 10 20 40).height) ∧
    (292 ≤ (headshotFit 50 80 73 100 292 400).width ∧
      400 ≤ (headshotFit 50 80 73 100 292 400).height) := by
  refine ⟨⟨by decide, by norm_num, ?_⟩, ?_, ?_, ?_⟩
  · exact min_bounds_amended.1 10 10 400 160 (5/2) (by decide) (by decide) (by norm_num)
      (by decide) (by decide)
  · exact min_bounds_amended.2.1 10 10 400 160 (5/2) (by decide) (by decide) (by norm_num)
  · exact min_bounds_amended.2.2.1 10 20 40
  · exact min_bounds_amended.2.2.2 50 80 (by decide) (by decide)

/-- Claim C3 (confirmed): in the padding-only paths (both rectangular-logo
fits, the square-logo fit, and the headshot fit at its default profile) the
canvas contains the source (canvasWidth >= sourceWidth, canvasHeight >=
sourceHeight), the centering offsets equal floor((canvas - source)/2) in each
direction, and both offsets are non-negative, so the source is never
clipped. -/
theorem padding_no_clip :
    (∀ w h minW minH : ℤ, ∀ a : ℚ, 0 < w → 0 < h → 0 < a → 0 < minW → 0 < minH →
      w ≤ (rectFitA w h a minW minH).width ∧ h ≤ (rectFitA w h a minW minH).height ∧
      (rectFitA w h a minW minH).offsetX =
        jfloor ((((rectFitA w h a minW minH).width - w : ℤ):ℚ)/2) ∧
      (rectFitA w h a minW minH).offsetY =
        jfloor ((((rectFitA w h a minW minH).height - h : ℤ):ℚ)/2) ∧
      0 ≤ (rectFitA w h a minW minH).offsetX ∧
      0 ≤ (rectFitA w h a minW minH).offsetY) ∧
    (∀ w h minW minH : ℤ, ∀ a : ℚ, 0 < w → 0 < h → 0 < a →
      w ≤ (rectFitB w h a minW minH).width ∧ h ≤ (rectFitB w h a minW minH).height ∧
      (rectFitB w h a minW minH).offsetX =
        jfloor ((((rectFitB w h a minW minH).width - w : ℤ):ℚ)/2) ∧
      (rectFitB w h a minW minH).offsetY =
        jfloor ((((rectFitB w h a minW minH).height - h : ℤ):ℚ)/2) ∧
      0 ≤ (rectFitB w h a minW minH).offsetX ∧
      0 ≤ (rectFitB w h a minW minH).offsetY) ∧
    (∀ w h minSize : ℤ,
      w ≤ (squareFit w h minSize).width ∧ h ≤ (squareFit w h minSize).height ∧
      (squareFit w h minSize).offsetX =
        jfloor ((((squareFit w h minSize).width - w : ℤ):ℚ)/2) ∧
      (squareFit w h minSize).offsetY =
        jfloor ((((squareFit w h minSize).height - h : ℤ):ℚ)/2) ∧
      0 ≤ (squareFit w h minSize).offsetX ∧ 0 ≤ (squareFit w h minSize).offsetY) ∧
    (∀ w h : ℤ, 0 < w → 0 < h →
      w ≤ (headshotFit w h 73 100 292 400).width ∧
      h ≤ (headshotFit w h 73 100 292 400).height ∧
      (headshotFit w h 73 100 292 400).offsetX =
        jfloor ((((headshotFit w h 73 100 292 400).width - w : ℤ):ℚ)/2) ∧
      (headshotFit w h 73 100 292 400).offsetY =
        jfloor ((((headshotFit w h 73 100 292 400).height - h : ℤ):ℚ)/2) ∧
      0 ≤ (headshotFit w h 73 100 292 400).offsetX ∧
      0 ≤ (headshotFit w h 73 100 292 400).offsetY) := by
  refine ⟨?_, ?_, ?_, ?_⟩
  · intro w h minW minH a hw hh ha hmw hmh
    obtain ⟨m1, m2, _, _⟩ := rectFitA_main w h minW minH a hw hh ha hmw hmh
    exact ⟨m1, m2, rectFitA_offsetX w h a minW minH, rectFitA_offsetY w h a minW minH,
      (rectFitA_offsetX w h a minW minH) ▸ jfloor_half_nonneg m1,
      (rectFitA_offsetY w h a minW minH) ▸ jfloor_half_nonneg m2⟩
  · intro w h minW minH a hw hh ha
    obtain ⟨m1, m2, _, _⟩ := rectFitB_main w h minW minH a hw hh ha
    exact ⟨m1, m2, rectFitB_offsetX w h a minW minH, rectFitB_offsetY w h a minW minH,
      (rectFitB_offsetX w h a minW minH) ▸ jfloor_half_nonneg m1,
      (rectFitB_offsetY w h a minW minH) ▸ jfloor_half_nonneg m2⟩
  · intro w h minSize
    obtain ⟨m1, m2, _, _, _⟩ := squareFit_main w h minSize
    exact ⟨m1, m2, squareFit_offsetX w h minSize, squareFit_offsetY w h minSize,
      (squareFit_offsetX w h minSize) ▸ jfloor_half_nonneg m1,
      (squareFit_offsetY w h minSize) ▸ jfloor_half_nonneg m2⟩
  · intro w h hw hh
    obtain ⟨_, _, m3, m4⟩ := headshotFit_default_main w h hw hh
    exact ⟨m3, m4, headshotFit_offsetX w h 73 100 292 400,
      headshotFit_offsetY w h 73 100 292 400,
      (headshotFit_offsetX w h 73 100 292 400) ▸ jfloor_half_nonneg m3,
      (headshotFit_offsetY w h 73 100 292 400) ▸ jfloor_half_nonneg m4⟩

/-- Claim C3 witness: the theorem applied at concrete inputs for each of the
four padding-only paths. -/
theorem padding_no_clip_witness :
    ((0:ℤ) < 10 ∧ (0:ℚ) < 5/2 ∧
      (10 ≤ (rectFitA 10 10 (5/2) 400 160).width ∧
        10 ≤ (rectFitA 10 10 (5/2) 400 160).height ∧
        (rectFitA 10 10 (5/2) 400 160).offsetX =
          jfloor ((((rectFitA 10 10 (5/2) 400 160).width - 10 : ℤ):ℚ)/2) ∧
        (rectFitA 10 10 (5/2) 400 160).offsetY =
          jfloor ((((rectFitA 10 10 (5/2) 400 160).height - 10 : ℤ):ℚ)/2) ∧
        0 ≤ (rectFitA 10 10 (5/2) 400 160).offsetX ∧
        0 ≤ (rectFitA 10 10 (5/2) 400 160).offsetY)) ∧
    (10 ≤ (rectFitB 10 10 (5/2) 400 160).width ∧
      10 ≤ (rectFitB 10 10 (5/2) 400 160).height ∧
      (rectFitB 10 10 (5/2) 400 160).offsetX =
        jfloor ((((rectFitB 10 10 (5/2) 400 160).width - 10 : ℤ):ℚ)/2) ∧
      (rectFitB 10 10 (5/2) 400 160).offsetY =
        jfloor ((((rectFitB 10 10 (5/2) 400 160).height - 10 : ℤ):ℚ)/2) ∧
      0 ≤ (rectFitB 10 10 (5/2) 400 160).offsetX ∧
      0 ≤ (rectFitB 10 10 (5/2) 400 160).offsetY) ∧
    (10 ≤ (squareFit 10 20 40).width ∧ 20 ≤ (squareFit 10 20 40).height ∧
      (squareFit 10 20 40).offsetX =
        jfloor ((((squareFit 10 20 40).width - 10 : ℤ):ℚ)/2) ∧
      (squareFit 10 20 40).offsetY =
        jfloor ((((squareFit 10 20 40).height - 20 : ℤ):ℚ)/2) ∧
      0 ≤ (squareFit 10 20 40).offsetX ∧ 0 ≤ (squareFit 10 20 40).offsetY) ∧
    (50 ≤ (headshotFit 50 80 73 100 292 400).width ∧
      80 ≤ (headshotFit 50 80 73 100 292 400).height ∧
      (headshotFit 50 80 73 100 292 400).offsetX =
        jfloor ((((headshotFit 50 80 73 100 292 400).width - 50 : ℤ):ℚ)/2) ∧
      (headshotFit 50 80 73 100 292 400).offsetY =
        jfloor ((((headshotFit 50 80 73 100 292 400).height - 80 : ℤ):ℚ)/2) ∧
      0 ≤ (headshotFit 50 80 73 100 292 400).offsetX ∧
      0 ≤ (headshotFit 50 80 73 100 292 400).offsetY) := by
  refine ⟨⟨by decide, by norm_num, ?_⟩, ?_, ?_, ?_⟩
  · exact padding_no_clip.1 10 10 400 160 (5/2) (by decide) (by decide) (by norm_num)
      (by decide) (by decide)
  · exact padding_no_clip.2.1 10 10 400 160 (5/2) (by decide) (by decide) (by norm_num)
  · exact padding_no_clip.2.2.1 10 20 40
  · exact padding_no_clip.2.2.2 50 80 (by decide) (by decide)

/-- Claim C4 (confirmed): removeBackground preserves the bitmap dimensions
and the pixel count; for every pixel it preserves the RGB channels, sets the
alpha to 0 exactly when the Euclidean RGB distance to the target color is
strictly below the tolerance, and leaves the alpha unchanged otherwise. -/
theorem color_keyer_spec (bmp : Bitmap) (s : KeyingSpec) (ht : 0 ≤ s.tolerance) :
    (removeBackground bmp s).width = bmp.width ∧
    (removeBackground bmp s).height = bmp.height ∧
    (removeBackground bmp s).data.length = bmp.data.length ∧
    ∀ i : ℕ, ∀ p : Pixel, bmp.data[i]? = some p →
      (removeBackground bmp s).data[i]? = some (keyPixel s p) ∧
      (keyPixel s p).r = p.r ∧ (keyPixel s p).g = p.g ∧ (keyPixel s p).b = p.b ∧
      (Real.sqrt ((distSq p s : ℤ) : ℝ) < ((s.tolerance : ℚ) : ℝ) →
        (keyPixel s p).a = 0) ∧
      (((s.tolerance : ℚ) : ℝ) ≤ Real.sqrt ((distSq p s : ℤ) : ℝ) →
        (keyPixel s p).a = p.a) := by
  refine ⟨rfl, rfl, ?_, ?_⟩
  · rw [removeBackground_data]
    exact List.length_map _ _
  · intro i p hp
    obtain ⟨hr, hg, hb, h0, hkeep⟩ := keyPixel_spec p s ht
    refine ⟨?_, hr, hg, hb, h0, hkeep⟩
    rw [removeBackground_data, List.getElem?_map, hp]
    rfl

/-- Claim C4 witness: the theorem applied to a concrete 2 x 1 bitmap holding
one pixel of exactly the target color (alpha becomes 0) and one far pixel
(alpha kept), with tolerance 30. -/
theorem color_keyer_spec_witness :
    (0:ℚ) ≤ (30:ℚ) ∧
    (removeBackground ⟨2, 1, [⟨255, 255, 255, 200⟩, ⟨0, 0, 0, 200⟩]⟩
        ⟨255, 255, 255, 30⟩).width = 2 ∧
    (keyPixel ⟨255, 255, 255, 30⟩ ⟨255, 255, 255, 200⟩).a = 0 ∧
    (keyPixel ⟨255, 255, 255, 30⟩ ⟨0, 0, 0, 200⟩).a = 200 := by
  have hspec := color_keyer_spec ⟨2, 1, [⟨255, 255, 255, 200⟩, ⟨0, 0, 0, 200⟩]⟩
    ⟨255, 255, 255, 30⟩ (by norm_num)
  refine ⟨by norm_num, hspec.1, ?_, ?_⟩
  · refine (hspec.2.2.2 0 ⟨255, 255, 255, 200⟩ rfl).2.2.2.2.1 ?_
    rw [show distSq ⟨255, 255, 255, 200⟩ ⟨255, 255, 255, 30⟩ = 0 by decide]
    rw [show (((0:ℤ)):ℝ) = (0:ℝ) by norm_num, Real.sqrt_zero]
    norm_num
  · refine (hspec.2.2.2 1 ⟨0, 0, 0, 200⟩ rfl).2.2.2.2.2 ?_
    rw [show distSq ⟨0, 0, 0, 200⟩ ⟨255, 255, 255, 30⟩ = 195075 by decide]
    rw [show ((30:ℚ):ℝ) = (30:ℝ) by norm_num]
    rw [show (((195075:ℤ)):ℝ) = (195075:ℝ) by norm_num]
    rw [Real.le_sqrt (by norm_num)]
    all_goals norm_num

/-- Claim C5 counterexample: the CropperComponent copy of createHeadshot maps
a 50 x 80 source to the canvas 292 x 400 with the source content drawn at
200 x 320, i.e. scaled by a factor 4, not merely padded. -/
theorem cropper_scaling_cex :
    cropperHeadshot 50 80 73 100 292 400 = ⟨292, 400, 200, 320, Fill.white⟩ ∧
    ¬((cropperHeadshot 50 80 73 100 292 400).contentW = ((50:ℤ):ℚ) ∧
      (cropperHeadshot 50 80 73 100 292 400).contentH = ((80:ℤ):ℚ)) := by
  refine ⟨cropperHeadshot_eval_50_80, ?_⟩
  rw [cropperHeadshot_eval_50_80]
  intro hcontra
  have := hcontra.1
  norm_num at this

/-- Claim C5 (corrected): every headshot render fills an opaque white
background; the part_002 implementation always draws the source unscaled
(drawn size equals source size) on a canvas that contains it; the
CropperComponent implementation draws the source at its own size only when
the ratio-padded base canvas already meets the minimums, and otherwise
rescales the padded canvas, and with it the source content (see the
counterexample). -/
theorem headshot_padding_amended :
    (∀ w h : ℤ, 0 < w → 0 < h →
      (renderHeadshotP2 w h).background = Fill.white ∧
      (renderHeadshotP2 w h).drawW = w ∧ (renderHeadshotP2 w h).drawH = h ∧
      w ≤ (renderHeadshotP2 w h).fit.width ∧
      h ≤ (renderHeadshotP2 w h).fit.height) ∧
    (∀ w h num den minW minH : ℤ,
      (cropperHeadshot w h num den minW minH).background = Fill.white) ∧
    (∀ w h : ℤ,
      ¬(cropperBaseWidth 73 w < 292 ∨ cropperBaseWidth 73 w * 100 / 73 < 400) →
      (cropperHeadshot w h 73 100 292 400).contentW = (w:ℚ) ∧
      (cropperHeadshot w h 73 100 292 400).contentH = (h:ℚ)) := by
  refine ⟨?_, ?_, ?_⟩
  · intro w h hw hh
    obtain ⟨_, _, m3, m4⟩ := headshotFit_default_main w h hw hh
    exact ⟨rfl, rfl, rfl, m3, m4⟩
  · intro w h num den minW minH
    exact cropperHeadshot_background w h num den minW minH
  · intro w h hc
    rw [cropperHeadshot_noscale _ _ _ _ _ _ hc]
    exact ⟨rfl, rfl⟩

/-- Claim C5 witness: the amended theorem applied at source 50 x 80 for the
part_002 path and at source 300 x 80 (base canvas 365 x 500, above the
minimums) for the CropperComponent path. -/
theorem headshot_padding_amended_witness :
    ((0:ℤ) < 50 ∧
      ((renderHeadshotP2 50 80).background = Fill.white ∧
       (renderHeadshotP2 50 80).drawW = 50 ∧ (renderHeadshotP2 50 80).drawH = 80 ∧
       50 ≤ (renderHeadshotP2 50 80).fit.width ∧
       80 ≤ (renderHeadshotP2 50 80).fit.height)) ∧
    (cropperHeadshot 1 1 73 100 292 400).background = Fill.white ∧
    (¬(cropperBaseWidth 73 300 < 292 ∨ cropperBaseWidth 73 300 * 100 / 73 < 400) ∧
      ((cropperHeadshot 300 80 73 100 292 400).contentW = ((300:ℤ):ℚ) ∧
       (cropperHeadshot 300 80 73 100 292 400).contentH = ((80:ℤ):ℚ))) := by
  have hns : ¬(cropperBaseWidth 73 300 < 292 ∨ cropperBaseWidth 73 300 * 100 / 73 < 400) := by
    rw [cropperBaseWidth_eval_300]
    decide
  refine ⟨⟨by decide, ?_⟩, ?_, hns, ?_⟩
  · exact headshot_padding_amended.1 50 80 (by decide) (by decide)
  · exact headshot_padding_amended.2.1 1 1 73 100 292 400
  · exact headshot_padding_amended.2.2 300 80 hns

/-- Claim C6 counterexample: no input validation exists: the rounded
rectangular fit on the zero-area source 0 x 10 (ratio 5:2, minimums
400 x 160) returns the normal canvas 400 x 160 with centering offsets instead
of failing with a validation error before producing a canvas. -/
theorem no_validation_cex :
    rectFitB 0 10 (5/2) 400 160 = ⟨400, 160, 200, 75⟩ :=
  rectFitB_eval_0_10

/-- Claim C6 (corrected): the fit computations perform no validation and
process any input; what does hold is that non-positive minimums impose no
constraint: with minWidth <= 0 and minHeight <= 0 the minimum-enforcement
branch is skipped and the fit returns the step-1 canvas unchanged (shown for
the rounded rectangular fit and for the headshot fit at ratio 73:100). -/
theorem validation_amended :
    (∀ w h minW minH : ℤ, ∀ a : ℚ, 0 < w → 0 < h → 0 < a → minW ≤ 0 → minH ≤ 0 →
      (rectFitB w h a minW minH).width = (rectStep1B w h a).1 ∧
      (rectFitB w h a minW minH).height = (rectStep1B w h a).2) ∧
    (∀ w h minW minH : ℤ, 0 < w → 0 < h → minW ≤ 0 → minH ≤ 0 →
      (headshotFit w h 73 100 minW minH).width = (headshotStep1 w h 73 100).1 ∧
      (headshotFit w h 73 100 minW minH).height = (headshotStep1 w h 73 100).2) := by
  constructor
  · intro w h minW minH a hw hh ha hmw hmh
    obtain ⟨s1, s2⟩ := rectStep1B_bounds w h a hw hh ha
    have hc : ¬((rectStep1B w h a).1 < minW ∨ (rectStep1B w h a).2 < minH) := by
      push_neg
      omega
    rw [rectFitB_width, rectFitB_height]
    unfold rectMinB
    rw [if_neg hc]
    exact ⟨rfl, rfl⟩
  · intro w h minW minH hw hh hmw hmh
    obtain ⟨s1, s2⟩ := headshotStep1_bounds w h 73 100 hw hh (by norm_num) (by norm_num)
    have hc : ¬((headshotStep1 w h 73 100).1 < minW ∨ (headshotStep1 w h 73 100).2 < minH) := by
      push_neg
      omega
    rw [headshotFit_width, headshotFit_height]
    unfold headshotMin
    rw [if_neg hc]
    exact ⟨rfl, rfl⟩

/-- Claim C6 witness: the amended theorem applied at source 10 x 10 with zero
minimums and at source 50 x 80 with non-positive minimums. -/
theorem validation_amended_witness :
    ((0:ℤ) < 10 ∧ (0:ℤ) ≤ 0 ∧
      ((rectFitB 10 10 (5/2) 0 0).width = (rectStep1B 10 10 (5/2)).1 ∧
       (rectFitB 10 10 (5/2) 0 0).height = (rectStep1B 10 10 (5/2)).2)) ∧
    ((0:ℤ) < 50 ∧ (-3:ℤ) ≤ 0 ∧
      ((headshotFit 50 80 73 100 0 (-3)).width = (headshotStep1 50 80 73 100).1 ∧
       (headshotFit 50 80 73 100 0 (-3)).height = (headshotStep1 50 80 73 100).2)) := by
  constructor
  · exact ⟨by decide, by decide,
      validation_amended.1 10 10 0 0 (5/2) (by decide) (by decide) (by norm_num)
        (by decide) (by decide)⟩
  · exact ⟨by decide, by decide,
      validation_amended.2 50 80 0 (-3) (by decide) (by decide) (by decide) (by decide)⟩

/-- Claim C7 counterexample: with aspect ratio 2.3 and minimums 400 x 160 the
exact-math rectangular fit maps 10 x 10 to the canvas 400 x 174, but feeding
400 x 174 back in returns width 401, so the fit is not idempotent for every
valid ratio. -/
theorem refit_changes_cex :
    (rectFitA 10 10 (23/10) 400 160).width = 400 ∧
    (rectFitA 10 10 (23/10) 400 160).height = 174 ∧
    (rectFitA (rectFitA 10 10 (23/10) 400 160).width
      (rectFitA 10 10 (23/10) 400 160).height (23/10) 400 160).width = 401 ∧
    (rectFitA (rectFitA 10 10 (23/10) 400 160).width
      (rectFitA 10 10 (23/10) 400 160).height (23/10) 400 160).width ≠
      (rectFitA 10 10 (23/10) 400 160).width := by
  obtain ⟨h1, h2⟩ := rectFitA_eval_10_10_23
  refine ⟨h1, h2, ?_, ?_⟩
  · rw [h1, h2]
    exact rectFitA_eval_400_174_23
  · rw [h1, h2, rectFitA_eval_400_174_23]
    decide

/-- Claim C7 (corrected): idempotence holds for the deployed profiles: the
exact-math rectangular fit at ratio 5:2 (any positive minimums) and the
CropperComponent headshot fit at ratio 73:100 with minimums 292 x 400 return
their own output canvas unchanged when refitted; for other ratios a refit can
grow a dimension by one Math.ceil step (see the counterexample). -/
theorem fit_idempotent_amended :
    (∀ w h minW minH : ℤ, 0 < w → 0 < h → 0 < minW → 0 < minH →
      (rectFitA (rectFitA w h (5/2) minW minH).width
          (rectFitA w h (5/2) minW minH).height (5/2) minW minH).width =
        (rectFitA w h (5/2) minW minH).width ∧
      (rectFitA (rectFitA w h (5/2) minW minH).width
          (rectFitA w h (5/2) minW minH).height (5/2) minW minH).height =
        (rectFitA w h (5/2) minW minH).height) ∧
    (∀ w h : ℤ,
      (cropperHeadshot (cropperHeadshot w h 73 100 292 400).canvasW
          (cropperHeadshot w h 73 100 292 400).canvasH 73 100 292 400).canvasW =
        (cropperHeadshot w h 73 100 292 400).canvasW ∧
      (cropperHeadshot (cropperHeadshot w h 73 100 292 400).canvasW
          (cropperHeadshot w h 73 100 292 400).canvasH 73 100 292 400).canvasH =
        (cropperHeadshot w h 73 100 292 400).canvasH) := by
  constructor
  · intro w h minW minH hw hh hmw hmh
    obtain ⟨u, hu, hW, hH, _, _, b3, b4⟩ := rectFitA_52_repr w h minW minH hw hh hmw hmh
    rw [hW, hH]
    exact rectFitA_52_fixed u minW minH hu b3 b4
  · exact cropperHeadshot_default_idem

/-- Claim C7 witness: the amended theorem applied at source 10 x 10 for the
rectangular 5:2 profile and at source 50 x 80 for the CropperComponent
headshot profile. -/
theorem fit_idempotent_amended_witness :
    ((0:ℤ) < 10 ∧ (0:ℤ) < 400 ∧
      ((rectFitA (rectFitA 10 10 (5/2) 400 160).width
          (rectFitA 10 10 (5/2) 400 160).height (5/2) 400 160).width =
        (rectFitA 10 10 (5/2) 400 160).width ∧
       (rectFitA (rectFitA 10 10 (5/2) 400 160).width
          (rectFitA 10 10 (5/2) 400 160).height (5/2) 400 160).height =
        (rectFitA 10 10 (5/2) 400 160).height)) ∧
    ((cropperHeadshot (cropperHeadshot 50 80 73 100 292 400).canvasW
        (cropperHeadshot 50 80 73 100 292 400).canvasH 73 100 292 400).canvasW =
      (cropperHeadshot 50 80 73 100 292 400).canvasW ∧
     (cropperHeadshot (cropperHeadshot 50 80 73 100 292 400).canvasW
        (cropperHeadshot 50 80 73 100 292 400).canvasH 73 100 292 400).canvasH =
      (cropperHeadshot 50 80 73 100 292 400).canvasH) := by
  constructor
  · exact ⟨by decide, by decide,
      fit_idempotent_amended.1 10 10 400 160 (by decide) (by decide) (by decide) (by decide)⟩
  · exact fit_idempotent_amended.2 50 80

/-- Claim C8 (confirmed): the favicon variant uses a fixed 64 x 64 canvas
(the largest of the sizes 40, 48, 64); the source is scaled by the uniform
factor min(64/w, 64/h) with rounding, so the scaled content fits inside the
canvas, the larger dimension lands exactly on 64, and the centering offsets
are non-negative; in particular a 1000 x 10 source is scaled to 64 x 1 and
centered vertically at y = 31. -/
theorem favicon_spec :
    icoCanvasSize = 64 ∧
    (∀ w h : ℤ, 0 < w → 0 < h →
      (icoFit w h).scaledW ≤ 64 ∧ (icoFit w h).scaledH ≤ 64 ∧
      ((icoFit w h).scaledW = 64 ∨ (icoFit w h).scaledH = 64) ∧
      0 ≤ (icoFit w h).x ∧ 0 ≤ (icoFit w h).y) ∧
    icoFit 1000 10 = ⟨64, 1, 0, 31⟩ :=
  ⟨icoCanvasSize_eq, fun w h hw hh => icoFit_main w h hw hh, icoFit_eval_1000_10⟩

/-- Claim C8 witness: the theorem applied at the extreme-aspect source
1000 x 10. -/
theorem favicon_spec_witness :
    (0:ℤ) < 1000 ∧ (0:ℤ) < 10 ∧
    ((icoFit 1000 10).scaledW ≤ 64 ∧ (icoFit 1000 10).scaledH ≤ 64 ∧
      ((icoFit 1000 10).scaledW = 64 ∨ (icoFit 1000 10).scaledH = 64) ∧
      0 ≤ (icoFit 1000 10).x ∧ 0 ≤ (icoFit 1000 10).y) :=
  ⟨by decide, by decide, favicon_spec.2.1 1000 10 (by decide) (by decide)⟩

/-- Claim C9 (confirmed): for source 50 x 80 at ratio 73:100 with minimums
292 x 400 the headshot ratio-only fit is 59 x 80 (59 = ceil(80 * 73/100)) and
the minimum enforcement yields the final canvas exactly 292 x 400. -/
theorem headshot_50_80_spec :
    headshotStep1 50 80 73 100 = (59, 80) ∧
    (headshotFit 50 80 73 100 292 400).width = 292 ∧
    (headshotFit 50 80 73 100 292 400).height = 400 :=
  ⟨headshotStep1_eval_50_80, headshotFit_eval_50_80.1, headshotFit_eval_50_80.2⟩

/-- Claim C10 (confirmed): in a successful processLogo result the ico field
is present exactly when both the ico and the square options are set, the
square field is present exactly when the square option is set (so with
square = false both are null even if ico was requested), and the rectangular
field is always produced. -/
theorem processLogo_fields_spec (w h : ℤ) (a : ℚ) (minW minH : ℤ) (sq ic : Bool) :
    ((processLogo w h a minW minH sq ic).ico.isSome = (ic && sq)) ∧
    ((processLogo w h a minW minH sq ic).square.isSome = sq) ∧
    ((processLogo w h a minW minH sq ic).rectangular.isSome = true) := by
  unfold processLogo
  cases sq <;> cases ic <;> simp

end ImageProcessor
